import Mathlib

/-!
Verification development for the crawl/ingestion service
(`backend/app/services/crawl_service.py`).

The Python source is shallowly embedded: Python `str` values are modelled as
`List Char` (sequences of Unicode scalar values), machine integers as `Int` /
`Nat`, floating-point confidence arithmetic as rationals rounded to the
nearest IEEE-754 binary64 value after every operation (`fl` below, making the
classifier bit-exact with CPython), fallible code as `Except`/`Option`, and
network / filesystem / clock effects as explicit oracle environments passed
to the embedded functions.  Python standard-library calls (`urllib.parse`, `str` methods) are
embedded from the CPython 3.11 sources (`/usr/lib/python3.11/urllib/parse.py`),
which is the interpreter version the service runs under; the one deliberate
simplification is that Unicode-table-dependent behaviour (full case mapping,
NFKC normalization inside `_checknetloc`) is modelled as ASCII case mapping /
pass-through, which is exact on ASCII data and does not affect any property
proved here.
-/

set_option maxRecDepth 10000

/-- Python `str` modelled as a list of Unicode scalar values. -/
abbrev PyStr := List Char

/-- Shorthand for turning a Lean string literal into a `PyStr`. -/
def pys (s : String) : PyStr := s.data

namespace PyStrOps

/-- Python's `needle in hay` substring test (contiguous). -/
def pyIn (needle hay : PyStr) : Bool :=
  hay.tails.any (fun t => needle.isPrefixOf t)

/-- ASCII lower-casing of one character.  (CPython's `str.lower` applies the
full Unicode case map; on the ASCII data manipulated by the service the two
agree, and non-ASCII characters are left unchanged here.) -/
def lowerChar (c : Char) : Char :=
  if 'A' ≤ c ∧ c ≤ 'Z' then Char.ofNat (c.toNat + 32) else c

/-- Python `str.lower()` (ASCII fragment of the Unicode case map). -/
def pyLower (s : PyStr) : PyStr := s.map lowerChar

/-- Python `str.endswith(suffix)`. -/
def pyEndsWith (s suffix : PyStr) : Bool := suffix.isSuffixOf s

/-- Python `str.startswith(prefix)`. -/
def pyStartsWith (s pre : PyStr) : Bool := pre.isPrefixOf s

/-- Python `str.removeprefix(p)`. -/
def pyRemovePrefix (s p : PyStr) : PyStr :=
  if p.isPrefixOf s then s.drop p.length else s

/-- Python `str.rstrip(c)` for a single strip character. -/
def pyRstrip (c : Char) (s : PyStr) : PyStr :=
  (s.reverse.dropWhile (fun x => x = c)).reverse

/-- Python `str.lstrip(c)` for a single strip character. -/
def pyLstrip (c : Char) (s : PyStr) : PyStr :=
  s.dropWhile (fun x => x = c)

/-- Fuel-driven worker for `pyReplace`; with `fuel ≥ s.length` it performs
Python's left-to-right non-overlapping replacement. -/
def pyReplaceFuel (old new : PyStr) : Nat → PyStr → PyStr
  | 0, s => s
  | fuel + 1, s =>
    match s with
    | [] => []
    | c :: rest =>
      if old ≠ [] ∧ old.isPrefixOf (c :: rest) then
        new ++ pyReplaceFuel old new fuel ((c :: rest).drop old.length)
      else
        c :: pyReplaceFuel old new fuel rest

/-- Python `str.replace(old, new)`, left-to-right, non-overlapping.
`old` is assumed non-empty (as at every call site of the service). -/
def pyReplace (s old new : PyStr) : PyStr :=
  pyReplaceFuel old new s.length s

/-- Python `s.find(c)` for a single character: index of first occurrence or
`-1`; here `Option Nat` (`none` = not found). -/
def pyFindChar (s : PyStr) (c : Char) : Option Nat :=
  s.findIdx? (fun x => x = c)

/-- First index at which any of the given characters occurs. -/
def pyFindAny (s : PyStr) (cs : List Char) : Option Nat :=
  s.findIdx? (fun x => cs.contains x)

/-- Python `s.find(c, start)`: first occurrence at index ≥ `start`. -/
def pyFindCharFrom (s : PyStr) (c : Char) (start : Nat) : Option Nat :=
  ((s.drop start).findIdx? (fun x => x = c)).map (· + start)

/-- Python `s.rfind(c)`: index of last occurrence. -/
def pyRfindChar (s : PyStr) (c : Char) : Option Nat :=
  (s.reverse.findIdx? (fun x => x = c)).map (fun i => s.length - 1 - i)

/-- Python `s.split(sep, 1)` for a single-character separator: split at the
first occurrence only. -/
def pySplitFirst (s : PyStr) (c : Char) : PyStr × PyStr :=
  match pyFindChar s c with
  | none => (s, [])
  | some i => (s.take i, s.drop (i + 1))

/-- Python `'.'.join(parts)`-style join with a single-character separator. -/
def pyJoin (c : Char) (parts : List PyStr) : PyStr :=
  List.intercalate [c] parts

/-- Is `c` an ASCII letter? -/
def isAsciiLetter (c : Char) : Bool :=
  ('a' ≤ c ∧ c ≤ 'z') ∨ ('A' ≤ c ∧ c ≤ 'Z')

/-- ASCII upper-casing of one character. -/
def upperChar (c : Char) : Char :=
  if 'a' ≤ c ∧ c ≤ 'z' then Char.ofNat (c.toNat - 32) else c

/-- Worker for `pyTitle`; the flag records whether the previous character was
a letter. -/
def pyTitleAux : Bool → PyStr → PyStr
  | _, [] => []
  | prevAlpha, c :: rest =>
    (if isAsciiLetter c then
      (if prevAlpha then lowerChar c else upperChar c)
     else c) :: pyTitleAux (isAsciiLetter c) rest

/-- Python `str.title()` (ASCII fragment): the first letter of each run of
letters is upper-cased, the following letters lower-cased. -/
def pyTitle (s : PyStr) : PyStr := pyTitleAux false s

end PyStrOps

open PyStrOps

namespace Py

/-!
### `urllib.parse` (CPython 3.11, `/usr/lib/python3.11/urllib/parse.py`)

Embedded at the fidelity the service exercises: `urlparse` / `urlunparse`
with `allow_fragments=True`, `parse_qs(..., keep_blank_values=True)` with the
default `&` separator, `urlencode(..., doseq=True)` with the default
`quote_plus`, and `unquote` with UTF-8/`replace` error handling.
`_checknetloc`'s NFKC-based `ValueError` (which can only fire on non-ASCII
authorities) is modelled as a pass, and case mapping is the ASCII fragment of
Unicode case mapping (see the header comment).
-/

/-- The exception type surfaced by the embedded stdlib (`ValueError`). -/
inductive PyErr where
  | valueError : PyErr
  deriving DecidableEq, Repr

/-- Decidable equality for `Except`, so concrete runs of the fallible
embedded functions can be checked by `decide`. -/
instance instDecEqExcept {ε α : Type _} [DecidableEq ε] [DecidableEq α] :
    DecidableEq (Except ε α) := fun a b =>
  match a, b with
  | .error e, .error f =>
    if h : e = f then isTrue (by rw [h])
    else isFalse (fun hh => h (by cases hh; rfl))
  | .ok x, .ok y =>
    if h : x = y then isTrue (by rw [h])
    else isFalse (fun hh => h (by cases hh; rfl))
  | .error _, .ok _ => isFalse (fun hh => Except.noConfusion hh)
  | .ok _, .error _ => isFalse (fun hh => Except.noConfusion hh)

/-- `scheme_chars` from `urllib.parse`. -/
def scheme_chars : List Char :=
  pys "abcdefghijklmnopqrstuvwxyzABCDEFGHIJKLMNOPQRSTUVWXYZ0123456789+-."

/-- `uses_params` from `urllib.parse`. -/
def uses_params : List PyStr :=
  [pys "", pys "ftp", pys "hdl", pys "prospero", pys "http", pys "imap",
   pys "https", pys "shttp", pys "rtsp", pys "rtspu", pys "sip", pys "sips",
   pys "mms", pys "sftp", pys "tel"]

/-- `uses_netloc` from `urllib.parse`. -/
def uses_netloc : List PyStr :=
  [pys "", pys "ftp", pys "http", pys "gopher", pys "nntp", pys "telnet",
   pys "imap", pys "wais", pys "file", pys "mms", pys "https", pys "shttp",
   pys "snews", pys "prospero", pys "rtsp", pys "rtspu", pys "rsync",
   pys "svn", pys "svn+ssh", pys "sftp", pys "nfs", pys "git", pys "git+ssh",
   pys "ws", pys "wss"]

/-- `_UNSAFE_URL_BYTES_TO_REMOVE`: `urlsplit` deletes every tab, CR and LF. -/
def removeUnsafe (s : PyStr) : PyStr :=
  s.filter (fun c => ¬ (c = '\t' ∨ c = '\r' ∨ c = '\n'))

/-- `url[0].isascii() and url[0].isalpha()` for the scheme sniff. -/
def isAsciiAlpha (c : Char) : Bool :=
  ('a' ≤ c ∧ c ≤ 'z') ∨ ('A' ≤ c ∧ c ≤ 'Z')

/-- The scheme-extraction step of `urlsplit`: if the text before the first
`:` starts with an ASCII letter and consists of scheme characters only, it is
split off (lower-cased); otherwise the URL is left alone. -/
def schemeSplit (url : PyStr) : PyStr × PyStr :=
  match pyFindChar url ':' with
  | none => ([], url)
  | some i =>
    if 0 < i ∧ isAsciiAlpha (url.headI) ∧
        (url.take i).all (fun c => scheme_chars.contains c) then
      (pyLower (url.take i), url.drop (i + 1))
    else
      ([], url)

/-- `_splitnetloc(url, 2)`: the authority runs to the first `/`, `?` or `#`
after the two slashes. -/
def splitnetloc2 (url : PyStr) : PyStr × PyStr :=
  let t := url.drop 2
  let delim := (pyFindAny t ['/', '?', '#']).getD t.length
  (t.take delim, t.drop delim)

/-- `SplitResult` (the 5-tuple returned by `urlsplit`). -/
structure SplitResult where
  scheme : PyStr
  netloc : PyStr
  path : PyStr
  query : PyStr
  fragment : PyStr
  deriving DecidableEq, Repr

/-- `ParseResult` (the 6-tuple returned by `urlparse`). -/
structure ParseResult where
  scheme : PyStr
  netloc : PyStr
  path : PyStr
  params : PyStr
  query : PyStr
  fragment : PyStr
  deriving DecidableEq, Repr

/-- `urlsplit(url)` with `allow_fragments=True`.  Raises `ValueError` on an
unbalanced IPv6 bracket in the authority. -/
def urlsplit (url0 : PyStr) : Except PyErr SplitResult :=
  let url1 := removeUnsafe url0
  let (scheme, url2) := schemeSplit url1
  let (netloc, url3) :=
    if pyStartsWith url2 (pys "//") then splitnetloc2 url2 else ([], url2)
  if (pyIn (pys "[") netloc ∧ ¬ pyIn (pys "]") netloc) ∨
      (pyIn (pys "]") netloc ∧ ¬ pyIn (pys "[") netloc) then
    .error .valueError
  else
    let (url4, fragment) := pySplitFirst url3 '#'
    let (url5, query) := pySplitFirst url4 '?'
    .ok ⟨scheme, netloc, url5, query, fragment⟩

/-- `_splitparams(url)`.  (Only invoked when `';' in url`; the `find = -1`
slicing Python would perform on a `;`-free, `/`-free string is therefore
unreachable and mirrored literally.) -/
def splitparams (url : PyStr) : PyStr × PyStr :=
  let i :=
    if pyIn (pys "/") url then
      pyFindCharFrom url ';' ((pyRfindChar url '/').getD 0)
    else
      pyFindChar url ';'
  match i with
  | none => (url, [])
  | some i => (url.take i, url.drop (i + 1))

/-- `urlparse(url)`: `urlsplit` plus the parameter split for schemes in
`uses_params`. -/
def urlparse (url : PyStr) : Except PyErr ParseResult := do
  let s ← urlsplit url
  let (path, params) :=
    if uses_params.contains s.scheme ∧ pyIn (pys ";") s.path then
      splitparams s.path
    else
      (s.path, [])
  .ok ⟨s.scheme, s.netloc, path, params, s.query, s.fragment⟩

/-- `urlunsplit((scheme, netloc, url, query, fragment))` (CPython 3.11). -/
def urlunsplit (scheme netloc url query fragment : PyStr) : PyStr :=
  let url :=
    if netloc ≠ [] ∨
        (scheme ≠ [] ∧ uses_netloc.contains scheme ∧ url.take 2 ≠ pys "//") then
      let url := if url ≠ [] ∧ url.take 1 ≠ pys "/" then '/' :: url else url
      pys "//" ++ netloc ++ url
    else url
  let url := if scheme ≠ [] then scheme ++ ':' :: url else url
  let url := if query ≠ [] then url ++ '?' :: query else url
  let url := if fragment ≠ [] then url ++ '#' :: fragment else url
  url

/-- `urlunparse((scheme, netloc, url, params, query, fragment))`. -/
def urlunparse (scheme netloc path params query fragment : PyStr) : PyStr :=
  urlunsplit scheme netloc
    (if params ≠ [] then path ++ ';' :: params else path) query fragment

/-! #### Percent-encoding (`quote_plus` / `unquote`) -/

/-- UTF-8 encoding of one Unicode scalar value, as a byte list. -/
def utf8EncodeChar (c : Char) : List Nat :=
  let n := c.toNat
  if n < 0x80 then [n]
  else if n < 0x800 then [0xC0 + n / 64, 0x80 + n % 64]
  else if n < 0x10000 then
    [0xE0 + n / 4096, 0x80 + (n / 64) % 64, 0x80 + n % 64]
  else
    [0xF0 + n / 262144, 0x80 + (n / 4096) % 64, 0x80 + (n / 64) % 64,
     0x80 + n % 64]

/-- `str.encode('utf-8')`. -/
def utf8Encode (s : PyStr) : List Nat := s.flatMap utf8EncodeChar

/-- Is `b` a UTF-8 continuation byte? -/
def isCont (b : Nat) : Bool := 0x80 ≤ b ∧ b ≤ 0xBF

/-- U+FFFD, the replacement character used by `errors='replace'`. -/
def repl : Char := Char.ofNat 0xFFFD

/-- Fuel-driven worker for `utf8Decode`; each step consumes at least one byte
and one unit of fuel, so `fuel ≥ bs.length` gives the untruncated decoding.
Well-formed sequences decode exactly; each ill-formed byte (or truncated
tail) contributes `U+FFFD` — the byte-exact replacement granularity of
CPython on ill-formed input is not observable in any property proved in this
development, which only ever decodes output of `utf8Encode`. -/
def utf8DecodeFuel : Nat → List Nat → PyStr
  | 0, _ => []
  | _ + 1, [] => []
  | fuel + 1, b :: bs =>
    if b < 0x80 then
      Char.ofNat b :: utf8DecodeFuel fuel bs
    else if 0xC2 ≤ b ∧ b ≤ 0xDF then
      match bs with
      | b1 :: rest =>
        if isCont b1 then
          Char.ofNat ((b - 0xC0) * 64 + (b1 - 0x80)) :: utf8DecodeFuel fuel rest
        else repl :: utf8DecodeFuel fuel bs
      | [] => [repl]
    else if 0xE0 ≤ b ∧ b ≤ 0xEF then
      match bs with
      | b1 :: b2 :: rest =>
        if (isCont b1 ∧ (b = 0xE0 → 0xA0 ≤ b1) ∧ (b = 0xED → b1 ≤ 0x9F)) ∧
            isCont b2 then
          Char.ofNat ((b - 0xE0) * 4096 + (b1 - 0x80) * 64 + (b2 - 0x80)) ::
            utf8DecodeFuel fuel rest
        else repl :: utf8DecodeFuel fuel bs
      | _ => [repl]
    else if 0xF0 ≤ b ∧ b ≤ 0xF4 then
      match bs with
      | b1 :: b2 :: b3 :: rest =>
        if (isCont b1 ∧ (b = 0xF0 → 0x90 ≤ b1) ∧ (b = 0xF4 → b1 ≤ 0x8F)) ∧
            isCont b2 ∧ isCont b3 then
          Char.ofNat ((b - 0xF0) * 262144 + (b1 - 0x80) * 4096 +
            (b2 - 0x80) * 64 + (b3 - 0x80)) :: utf8DecodeFuel fuel rest
        else repl :: utf8DecodeFuel fuel bs
      | _ => [repl]
    else
      repl :: utf8DecodeFuel fuel bs

/-- `bytes.decode('utf-8', 'replace')`. -/
def utf8Decode (bs : List Nat) : PyStr := utf8DecodeFuel bs.length bs

/-- `_ALWAYS_SAFE` as a predicate on bytes. -/
def alwaysSafeByte (b : Nat) : Bool :=
  (0x41 ≤ b ∧ b ≤ 0x5A) ∨ (0x61 ≤ b ∧ b ≤ 0x7A) ∨ (0x30 ≤ b ∧ b ≤ 0x39) ∨
    b = '_'.toNat ∨ b = '.'.toNat ∨ b = '-'.toNat ∨ b = '~'.toNat

/-- `"0123456789ABCDEF"[n]`. -/
def hexDigit (n : Nat) : Char := (pys "0123456789ABCDEF").getD n '0'

/-- One byte of `quote` output: the byte itself if safe, else `%XX`. -/
def quoteByte (extraSafe : List Char) (b : Nat) : PyStr :=
  if alwaysSafeByte b ∨ (b < 0x80 ∧ extraSafe.contains (Char.ofNat b)) then
    [Char.ofNat b]
  else
    ['%', hexDigit (b / 16), hexDigit (b % 16)]

/-- `quote(string, safe)` restricted to ASCII `safe` sets (the service only
ever reaches `safe=''` or `safe=' '` via `quote_plus`). -/
def quote (extraSafe : List Char) (s : PyStr) : PyStr :=
  (utf8Encode s).flatMap (quoteByte extraSafe)

/-- `quote_plus(string)` with `safe=''`. -/
def quote_plus (s : PyStr) : PyStr :=
  if ¬ pyIn (pys " ") s then quote [] s
  else pyReplace (quote [' '] s) (pys " ") (pys "+")

/-- Is `c` a hexadecimal digit (`_hexdig`)? -/
def isHexDigit (c : Char) : Bool :=
  ('0' ≤ c ∧ c ≤ '9') ∨ ('a' ≤ c ∧ c ≤ 'f') ∨ ('A' ≤ c ∧ c ≤ 'F')

/-- Numeric value of a hex digit. -/
def hexVal (c : Char) : Nat :=
  if '0' ≤ c ∧ c ≤ '9' then c.toNat - '0'.toNat
  else if 'a' ≤ c ∧ c ≤ 'f' then c.toNat - 'a'.toNat + 10
  else c.toNat - 'A'.toNat + 10

/-- `unquote_to_bytes` on an ASCII chunk, written as the equivalent
left-to-right scanner: a `%` followed by two hex digits becomes one byte,
any other character contributes its own code. -/
def unquoteToBytes : PyStr → List Nat
  | [] => []
  | '%' :: h1 :: h2 :: rest =>
    if isHexDigit h1 ∧ isHexDigit h2 then
      (hexVal h1 * 16 + hexVal h2) :: unquoteToBytes rest
    else
      '%'.toNat :: unquoteToBytes (h1 :: h2 :: rest)
  | c :: rest => c.toNat :: unquoteToBytes rest

/-- Fuel-driven worker for `unquote`: maximal ASCII runs are percent-decoded
to bytes and UTF-8-decoded (`errors='replace'`); non-ASCII characters pass
through verbatim (the `_asciire` chunking of CPython's `unquote`). -/
def unquoteFuel : Nat → PyStr → PyStr
  | 0, s => s
  | _ + 1, [] => []
  | fuel + 1, c :: rest =>
    if c.toNat ≥ 0x80 then
      c :: unquoteFuel fuel rest
    else
      let run := (c :: rest).takeWhile (fun x => x.toNat < 0x80)
      let rest' := (c :: rest).dropWhile (fun x => x.toNat < 0x80)
      utf8Decode (unquoteToBytes run) ++ unquoteFuel fuel rest'

/-- `unquote(string)` (UTF-8, `errors='replace'`). -/
def unquote (s : PyStr) : PyStr :=
  if ¬ pyIn (pys "%") s then s else unquoteFuel s.length s

/-- `parse_qsl(qs, keep_blank_values=True)` with the default `&` separator. -/
def parse_qsl (qs : PyStr) : List (PyStr × PyStr) :=
  let queryArgs := if qs = [] then [] else qs.splitOn '&'
  queryArgs.foldr
    (fun nameValue acc =>
      if nameValue = [] then acc
      else
        let (name, value) := pySplitFirst nameValue '='
        (unquote (pyReplace name (pys "+") (pys " ")),
         unquote (pyReplace value (pys "+") (pys " "))) :: acc)
    []

/-- Append a value under a key, preserving first-occurrence key order
(the dict building of `parse_qs`). -/
def addPair (acc : List (PyStr × List PyStr)) (k : PyStr) (v : PyStr) :
    List (PyStr × List PyStr) :=
  match acc with
  | [] => [(k, [v])]
  | (k', vs) :: rest =>
    if k' = k then (k', vs ++ [v]) :: rest else (k', vs) :: addPair rest k v

/-- `parse_qs(qs, keep_blank_values=True)`: grouped, insertion-ordered. -/
def parse_qs (qs : PyStr) : List (PyStr × List PyStr) :=
  (parse_qsl qs).foldl (fun acc kv => addPair acc kv.1 kv.2) []

/-- `urlencode(params, doseq=True)` over the ordered groups of `parse_qs`. -/
def urlencode (q : List (PyStr × List PyStr)) : PyStr :=
  pyJoin '&'
    (q.flatMap (fun kv => kv.2.map (fun v => quote_plus kv.1 ++ '=' :: quote_plus v)))

end Py


namespace CrawlService

/-! ### `is_valid_document` (crawl_service.py lines 347-400) -/

/-- The `policy_type_map` dictionary inside `is_valid_document`. -/
def policyTypeMapLookup (key : PyStr) : Option (List PyStr) :=
  if key = pys "life" then
    some [pys "life", pys "lif", pys "living", pys "death", pys "tpd",
      pys "income protection", pys "trauma"]
  else if key = pys "home" then
    some [pys "home", pys "house", pys "property", pys "building",
      pys "landlord", pys "rental", pys "dwelling"]
  else if key = pys "contents" then
    some [pys "contents", pys "contents plus", pys "personal belongings",
      pys "valuables", pys "household contents"]
  else if key = pys "motor" then
    some [pys "motor", pys "vehicle", pys "car", pys "auto",
      pys "comprehensive", pys "third party", pys "tpft"]
  else if key = pys "travel" then
    some [pys "travel", pys "trip", pys "overseas", pys "holiday",
      pys "international"]
  else if key = pys "health" then
    some [pys "health", pys "medical", pys "hospital", pys "dental",
      pys "optical"]
  else if key = pys "business" then
    some [pys "business", pys "commercial", pys "liability", pys "sme",
      pys "professional indemnity", pys "public liability"]
  else if key = pys "pet" then
    some [pys "pet", pys "dog", pys "cat", pys "animal"]
  else if key = pys "marine" then
    some [pys "marine", pys "boat", pys "watercraft", pys "yacht"]
  else
    none

/-- `policy_type_map.get(policy_type.lower(), [policy_type.lower()])`. -/
def policyKeywordsFor (policyType : PyStr) : List PyStr :=
  (policyTypeMapLookup (pyLower policyType)).getD [pyLower policyType]

/-- The `for policy_type in (policy_types or [])` loop of `is_valid_document`:
first requested policy type whose keyword group matches the lowered URL. -/
def firstMatchingPolicyType (urlLower : PyStr) :
    List PyStr → Option PyStr
  | [] => none
  | pt :: rest =>
    if (policyKeywordsFor pt).any (fun pk => pyIn pk urlLower) then some pt
    else firstMatchingPolicyType urlLower rest

/-- `is_valid_document(url, keyword_filters, policy_types)`:
returns `(is_valid, matched_policy_type)`. -/
def is_valid_document (url : PyStr) (keywordFilters policyTypes : List PyStr) :
    Bool × Option PyStr :=
  let urlLower := pyLower url
  match firstMatchingPolicyType urlLower policyTypes with
  | some pt => (true, some pt)
  | none =>
    if keywordFilters ≠ [] ∧
        keywordFilters.any (fun kw => pyIn (pyLower kw) urlLower) then
      (true, some (pys "General"))
    else if pyEndsWith urlLower (pys ".pdf") ∨
        pyEndsWith urlLower (pys ".pdf/") then
      (true, some (pys "General"))
    else
      (false, none)

/-! ### `sanitize_filename` (lines 552-571) -/

/-- `sanitize_filename(name)`, parameterized by Python's Unicode
`str.isalnum` predicate (a property of the Unicode character database,
external to the service). -/
def sanitize_filename (isalnum : Char → Bool) (name : PyStr) : PyStr :=
  let safe1 := pyReplace (pyReplace (pyReplace name (pys "/") (pys "_"))
    (pys "\\") (pys "_")) (pys "..") (pys "_")
  let safe2 := safe1.filter (fun c => isalnum c ∨ c = '_' ∨ c = '-' ∨ c = '.')
  let safe3 := let stripped := pyLstrip '.' safe2
    if stripped = [] then pys "unknown" else stripped
  if safe3.length > 200 then safe3.take 200 else safe3

/-! ### `same_domain` (lines 507-545), `get_base_domain` inner function -/

/-- The `CCLD_SUFFIXES` set. -/
def CCLD_SUFFIXES : List PyStr :=
  [pys "co.nz", pys "org.nz", pys "net.nz", pys "govt.nz", pys "ac.nz",
   pys "com.au", pys "org.au", pys "net.au", pys "edu.au", pys "gov.au",
   pys "co.uk", pys "org.uk", pys "me.uk", pys "net.uk", pys "gov.uk",
   pys "co.za", pys "org.za", pys "co.in", pys "com.sg", pys "com.hk",
   pys "co.jp", pys "com.br", pys "co.kr", pys "com.mx", pys "co.id"]

/-- `get_base_domain(netloc)` inside `same_domain`. -/
def get_base_domain (netloc : PyStr) : PyStr :=
  let n := (pySplitFirst (pyRemovePrefix (pyLower netloc) (pys "www.")) ':').1
  let parts := n.splitOn '.'
  if parts.length ≥ 3 ∧
      CCLD_SUFFIXES.contains (pyJoin '.' (parts.drop (parts.length - 2))) then
    pyJoin '.' (parts.drop (parts.length - 3))
  else if parts.length ≥ 2 then
    pyJoin '.' (parts.drop (parts.length - 2))
  else
    n

end CrawlService

namespace CrawlService

open Py

/-! ### `normalize_url` (lines 406-432) -/

/-- `normalize_url(url)`, parameterized by the configured `TRACKING_PARAMS`
set (environment configuration, external to the service).  Errors of the
underlying `urlparse` propagate. -/
def normalize_url (tracking : List PyStr) (url : PyStr) :
    Except PyErr PyStr := do
  let parsed ← urlparse url
  let path := let p := pyRstrip '/' parsed.path
    if p = [] then pys "/" else p
  let query :=
    if parsed.query ≠ [] then
      let params := parse_qs parsed.query
      let params := params.filter (fun kv => ¬ tracking.contains (pyLower kv.1))
      if params ≠ [] then urlencode params else []
    else []
  let scheme := pyLower parsed.scheme
  let netloc := pyLower parsed.netloc
  .ok (urlunparse scheme netloc path parsed.params query [])

/-! ### `is_pdf_url` (lines 435-449) -/

/-- `is_pdf_url(url)`. -/
def is_pdf_url (url : PyStr) : Except PyErr Bool := do
  let parsed ← urlparse url
  let path := pyLower parsed.path
  if pyEndsWith path (pys ".pdf") ∨ pyEndsWith path (pys ".pdf/") then
    return true
  if pyIn (pys ".pdf") path then
    return true
  if pyIn (pys ".pdf") (pyLower parsed.query) then
    return true
  return false

/-! ### `same_domain` (lines 507-545) -/

/-- `same_domain(seed_url, candidate_url)`. -/
def same_domain (seedUrl candidateUrl : PyStr) : Except PyErr Bool := do
  let seed ← urlparse seedUrl
  let cand ← urlparse candidateUrl
  return get_base_domain seed.netloc = get_base_domain cand.netloc

/-! ### Binary64 model for the classifier's float arithmetic

`classify_document` computes its confidence with Python floats.  To be
bit-exact with CPython, every arithmetic step is rounded to the nearest
IEEE-754 binary64 value (ties to even) by `fl`; the magnitudes involved are
far from the subnormal and overflow ranges, so a plain 53-bit significand
model is exact. -/

/-- Fuel-driven `⌊log₂ n⌋` (0 for `n ≤ 1`), kernel-reducible. -/
def nlog2Fuel : Nat → Nat → Nat
  | 0, _ => 0
  | fuel + 1, n => if n ≤ 1 then 0 else nlog2Fuel fuel (n / 2) + 1

/-- `⌊log₂ n⌋` for `n ≥ 1`. -/
def nlog2 (n : Nat) : Nat := nlog2Fuel n n

/-- Round a rational to an integer, half to even. -/
def roundHalfEvenZ (q : ℚ) : ℤ :=
  let f := ⌊q⌋
  let r := q - f
  if r < 1/2 then f else if 1/2 < r then f + 1
  else if f % 2 = 0 then f else f + 1

/-- The exponent `e` with `2^e ≤ q < 2^(e+1)`, for `q > 0`: first guess from
the bit lengths of numerator and denominator, then correct by comparison. -/
def intLog2Q (q : ℚ) : ℤ :=
  let e : ℤ := (nlog2 q.num.toNat : ℤ) - (nlog2 q.den : ℤ)
  if (2 : ℚ) ^ e ≤ q then
    (if (2 : ℚ) ^ (e + 1) ≤ q then e + 1 else e)
  else e - 1

/-- Round to the nearest binary64 value (ties to even; no
subnormal/overflow handling, which the classifier's value range never
reaches). -/
def fl (q : ℚ) : ℚ :=
  if q = 0 then 0
  else
    let e := intLog2Q |q|
    let m := roundHalfEvenZ (|q| * (2 : ℚ) ^ (52 - e))
    (if q < 0 then -1 else 1) * (m : ℚ) * (2 : ℚ) ^ (e - 52)

/-- Float addition. -/
def fadd (a b : ℚ) : ℚ := fl (a + b)

/-- Float multiplication. -/
def fmul (a b : ℚ) : ℚ := fl (a * b)

/-- A float literal: the binary64 value of a decimal literal. -/
def flit (q : ℚ) : ℚ := fl q

/-! ### `classify_document` (lines 1162-1445) -/

/-- `CLASSIFICATION_RULES`: `(doc_type, keywords, weight)` in insertion
order. -/
def CLASSIFICATION_RULES : List (PyStr × List PyStr × ℚ) :=
  [(pys "PDS",
    [pys "pds", pys "product disclosure", pys "product-disclosure",
     pys "productdisclosure", pys "combined fsg",
     pys "financial services guide"], flit 1),
   (pys "Policy Wording",
    [pys "policy wording", pys "policy-wording", pys "policywording",
     pys "wording", pys "policy document", pys "policy schedule",
     pys "terms and conditions", pys "conditions of cover",
     pys "cover wording"], flit (9/10)),
   (pys "Fact Sheet",
    [pys "fact sheet", pys "fact-sheet", pys "factsheet", pys "key facts",
     pys "keyfacts", pys "key information", pys "summary of cover",
     pys "cover summary"], flit (17/20)),
   (pys "TMD",
    [pys "tmd", pys "target market", pys "target-market", pys "targetmarket",
     pys "target market determination"], flit (9/10)),
   (pys "Product Guide",
    [pys "product guide", pys "product-guide", pys "productguide",
     pys "guide", pys "brochure", pys "overview"], flit (7/10)),
   (pys "Certificate of Insurance",
    [pys "certificate of insurance", pys "certificate-of-insurance",
     pys "coi", pys "proof of insurance"], flit (17/20)),
   (pys "Claim Form",
    [pys "claim form", pys "claim-form", pys "claimform", pys "claims form",
     pys "make a claim", pys "lodge a claim"], flit (4/5))]

/-- `POLICY_TYPE_RULES` in insertion order. -/
def POLICY_TYPE_RULES : List (PyStr × List PyStr) :=
  [(pys "Motor",
    [pys "motor", pys "vehicle", pys "car", pys "auto", pys "comprehensive",
     pys "third party", pys "tpft", pys "third-party", pys "automotive"]),
   (pys "Home",
    [pys "home", pys "house", pys "property", pys "building", pys "dwelling",
     pys "homeowner", pys "home-owner", pys "residential"]),
   (pys "Contents",
    [pys "contents", pys "contents plus", pys "contents-plus",
     pys "personal belongings", pys "household contents", pys "valuables"]),
   (pys "Landlord",
    [pys "landlord", pys "rental", pys "rental property",
     pys "investment property", pys "landlords"]),
   (pys "Travel",
    [pys "travel", pys "trip", pys "overseas", pys "holiday",
     pys "international"]),
   (pys "Life",
    [pys "life", pys "lif", pys "living", pys "death", pys "tpd",
     pys "income protection", pys "trauma", pys "funeral"]),
   (pys "Health",
    [pys "health", pys "medical", pys "hospital", pys "dental",
     pys "optical", pys "surgical", pys "wellness"]),
   (pys "Business",
    [pys "business", pys "commercial", pys "liability", pys "sme",
     pys "professional indemnity", pys "public liability", pys "trade"]),
   (pys "Pet",
    [pys "pet", pys "dog", pys "cat", pys "animal", pys "puppy",
     pys "kitten", pys "pet insurance", pys "pet-insurance",
     pys "petinsurance", pys "veterinary", pys "veterinarian",
     pys "vet cover", pys "vet care", pys "vet insurance",
     pys "companion animal", pys "canine", pys "feline", pys "breed",
     pys "pedigree", pys "pet health", pys "pet care", pys "pet plan",
     pys "animal cover", pys "pet policy", pys "fur baby",
     pys "dog insurance", pys "cat insurance", pys "pet protection",
     pys "vet bill", pys "vet fees", pys "pet medical", pys "pet accident",
     pys "pet illness"]),
   (pys "Marine",
    [pys "marine", pys "boat", pys "watercraft", pys "yacht", pys "vessel"])]

/-- `KNOWN_INSURERS` in insertion order. -/
def KNOWN_INSURERS : List (PyStr × PyStr) :=
  [(pys "aainsurance", pys "AA Insurance"),
   (pys "aa-insurance", pys "AA Insurance"),
   (pys "ami", pys "AMI Insurance"),
   (pys "tower", pys "Tower Insurance"),
   (pys "state", pys "State Insurance"),
   (pys "aia", pys "AIA New Zealand"),
   (pys "southern-cross", pys "Southern Cross"),
   (pys "southerncross", pys "Southern Cross"),
   (pys "partners-life", pys "Partners Life"),
   (pys "partnerslife", pys "Partners Life"),
   (pys "nib", pys "nib Insurance"),
   (pys "fidelity", pys "Fidelity Life"),
   (pys "cigna", pys "Cigna Insurance"),
   (pys "asteron", pys "Asteron Life"),
   (pys "suncorp", pys "Suncorp"),
   (pys "iag", pys "IAG"),
   (pys "vero", pys "Vero Insurance"),
   (pys "chubb", pys "Chubb Insurance"),
   (pys "allianz", pys "Allianz"),
   (pys "zurich", pys "Zurich Insurance"),
   (pys "qbe", pys "QBE Insurance"),
   (pys "tmi", pys "TMI (The Mutual Insurance)"),
   (pys "initio", pys "Initio Insurance"),
   (pys "ando", pys "Ando Insurance"),
   (pys "youi", pys "Youi Insurance"),
   (pys "trade-me", pys "Trade Me Insurance"),
   (pys "trademe", pys "Trade Me Insurance"),
   (pys "pinnacle", pys "Pinnacle Life"),
   (pys "accuro", pys "Accuro Health Insurance")]

/-- ASCII apostrophe (used by the `matched '...'` message). -/
def apos : Char := Char.ofNat 39

/-- The three-character sequence the source file literally contains (a
mojibake em dash, bytes C3A2 E282AC E2809D read as UTF-8) inside three of its
warning strings. -/
def mojiDash : PyStr := [Char.ofNat 0xE2, Char.ofNat 0x20AC, Char.ofNat 0x201D]

/-- Stage 1/2 of `classify_document`: best document-type match over
`CLASSIFICATION_RULES`, scanning rules and keywords in order and keeping a
strictly better score.  Returns `(best_match_score, classification,
matched_source)`. -/
def classifyStage1 (combined urlLower filenameLower : PyStr)
    (textLower : Option PyStr) : ℚ × PyStr × PyStr :=
  CLASSIFICATION_RULES.foldl
    (fun acc rule =>
      rule.2.1.foldl
        (fun acc kw =>
          if pyIn kw combined then
            let score := rule.2.2
            let score :=
              if pyIn kw urlLower then fadd score (flit (1/20)) else score
            let score :=
              if pyIn kw filenameLower then fadd score (flit (1/20)) else score
            let score :=
              match textLower with
              | some t => if pyIn kw t then fadd score (flit (1/10)) else score
              | none => score
            if score > acc.1 then
              (score, rule.1, pys "matched " ++ apos :: kw ++ [apos])
            else acc
          else acc)
        acc)
    (0, pys "Unclassified", pys "")

/-- One policy-type rule's score in stage 3: differentiated weights for
multi-word keywords and for matches in URL / filename / text sample. -/
def policyTypeScore (urlLower filenameLower : PyStr) (textLower : Option PyStr)
    (kws : List PyStr) : Nat :=
  kws.foldl
    (fun s kw =>
      let multi := pyIn (pys " ") kw ∨ pyIn (pys "-") kw
      let s := s + (if pyIn kw urlLower then (if multi then 4 else 2) else 0)
      let s := s + (if pyIn kw filenameLower then (if multi then 6 else 3) else 0)
      s + (match textLower with
           | some t => if pyIn kw t then (if multi then 3 else 1) else 0
           | none => 0))
    0

/-- Stage 3 of `classify_document`: best policy type.  The `Pet` score boost
`int(score * 1.2)` equals `6 * score / 5` in integer arithmetic (the float
product always rounds to a value with the same floor for these magnitudes).
Returns `(best_pt_score, detected_policy_type)`. -/
def classifyStage3 (urlLower filenameLower : PyStr) (textLower : Option PyStr)
    (providedPolicyType : PyStr) : Nat × PyStr :=
  POLICY_TYPE_RULES.foldl
    (fun acc rule =>
      let score := policyTypeScore urlLower filenameLower textLower rule.2
      let score :=
        if rule.1 = pys "Pet" ∧ score > 0 then 6 * score / 5 else score
      if score > acc.1 then (score, rule.1) else acc)
    (0, providedPolicyType)

/-- Round-half-to-even at two decimal places (Python's `round(x, 2)`; the
binary-float tie-breaking of CPython can differ from exact rational rounding
only when `100 * x` is an exact half-integer, which no property proved here
depends on). -/
def pyRound2 (q : ℚ) : ℚ :=
  let f : ℤ := ⌊q * 100⌋
  let r : ℚ := q * 100 - f
  (if r < 1/2 then f else if r > 1/2 then f + 1
   else if f % 2 = 0 then f else f + 1 : ℚ) / 100

/-- The result record of `classify_document` (the returned dict; the
`classified_at` timestamp is the caller-supplied clock value). -/
structure ClassifyResult where
  classification : PyStr
  confidence : ℚ
  status : PyStr
  warnings : List PyStr
  insurerName : Option PyStr
  matchedSource : PyStr
  detectedPolicyType : PyStr
  metaClassifiedAt : PyStr
  metaMethod : PyStr
  metaUrlDomain : PyStr
  metaFileSize : Option Int
  metaPolicyType : PyStr
  deriving DecidableEq, Repr

/-- The confidence computed by stages 1-3 of `classify_document`, before the
file-size adjustment, together with the classification label and the
warnings accumulated so far. -/
def classifyConfidencePreSize (url filename : PyStr)
    (pdfTextSample : Option PyStr) : ℚ × PyStr × List PyStr × PyStr :=
  let urlLower := pyLower url
  let filenameLower := pyLower filename
  let textLower : Option PyStr :=
    match pdfTextSample with
    | some t => if t = [] then none else some (pyLower t)
    | none => none
  let combined := urlLower ++ ' ' :: filenameLower ++
    (match textLower with | some t => ' ' :: t | none => [])
  let (bestScore, classification, matchedSource) :=
    classifyStage1 combined urlLower filenameLower textLower
  let bestPt := (classifyStage3 urlLower filenameLower textLower (pys "")).1
  let bestScore :=
    if bestPt > 0 ∧ bestScore > 0 then
      min (fadd bestScore (flit (1/20))) 1
    else bestScore
  if bestScore > 0 then
    (min bestScore 1, classification, [], matchedSource)
  else if bestPt > 0 then
    (min (fadd (flit (2/5)) (fmul (bestPt : ℚ) (flit (1/20)))) (flit (7/10)),
     pys "General Document",
     [pys "Document type unclear " ++ mojiDash ++
      pys " policy category detected from filename/text"], matchedSource)
  else if pyIn (pys ".pdf") urlLower ∨ pyIn (pys ".pdf") filenameLower then
    (flit (3/10), pys "General Document",
     [pys "No classification keyword match"], matchedSource)
  else
    (flit (1/10), pys "Unknown", [pys "Unable to classify"], matchedSource)

/-- `classify_document(url, filename, policy_type, file_size,
pdf_text_sample)`.  `now` is the `datetime.now(timezone.utc).isoformat()`
value recorded in the metadata.  A `file_size` of `none` models Python
`None`; `some 0` is falsy like `None` for the size-adjustment stage. -/
def classify_document (url filename policyType : PyStr)
    (fileSize : Option Int) (pdfTextSample : Option PyStr) (now : PyStr) :
    Except PyErr ClassifyResult := do
  let urlLower := pyLower url
  let filenameLower := pyLower filename
  let textLower : Option PyStr :=
    match pdfTextSample with
    | some t => if t = [] then none else some (pyLower t)
    | none => none
  let (preConfidence, classification, warnings0, matchedSource) :=
    classifyConfidencePreSize url filename pdfTextSample
  let detectedPolicyType :=
    (classifyStage3 urlLower filenameLower textLower policyType).2
  let (confidence, warnings) :=
    match fileSize with
    | some n =>
      if n ≠ 0 then
        if n < 10000 then
          (fmul preConfidence (flit (1/2)), warnings0 ++ [pys "Very small file"])
        else if n < 50000 then
          (fmul preConfidence (flit (4/5)), warnings0 ++ [pys "Small file size"])
        else if n > 20000000 then
          (fmul preConfidence (flit (9/10)), warnings0 ++ [pys "Very large file"])
        else (preConfidence, warnings0)
      else (preConfidence, warnings0)
    | none => (preConfidence, warnings0)
  let (status, warnings) :=
    if confidence ≥ flit (17/20) then (pys "auto-approved", warnings)
    else if confidence ≥ flit (1/2) then
      (pys "needs-review",
       if ¬ warnings.contains (pys "Low confidence") then
         warnings ++ [pys "Low confidence " ++ mojiDash ++
           pys " manual review recommended"]
       else warnings)
    else
      (pys "needs-review",
       warnings ++ [pys "Very low confidence " ++ mojiDash ++
         pys " requires manual review"])
  let parsed ← urlparse url
  let domain := pyReplace (pyLower parsed.netloc) (pys "www.") (pys "")
  let domainBase := if domain ≠ [] then (domain.splitOn '.').headI else []
  let insurerName :=
    (KNOWN_INSURERS.find?
      (fun p => pyIn p.1 domainBase ∨ pyIn p.1 domain)).map Prod.snd
  return {
    classification := classification
    confidence := pyRound2 confidence
    status := status
    warnings := warnings
    insurerName := insurerName
    matchedSource := matchedSource
    detectedPolicyType := detectedPolicyType
    metaClassifiedAt := now
    metaMethod := pys "rule-based-v2"
    metaUrlDomain := domain
    metaFileSize := fileSize
    metaPolicyType := detectedPolicyType }

/-! ### Concurrency registry (lines 113-159) -/

/-- The in-memory `_ACTIVE_CRAWLS` dict: `(crawl_id, start_time)` entries in
insertion order (timestamps as abstract naturals). -/
abbrev ActiveCrawls := List (Nat × Nat)

/-- `min(_ACTIVE_CRAWLS.keys(), key=...)`: the first entry with the minimal
start time (Python's `min` keeps the earliest-scanned minimum). -/
def oldestCrawl : ActiveCrawls → Option (Nat × Nat)
  | [] => none
  | p :: rest =>
    some (rest.foldl (fun acc q => if q.2 < acc.2 then q else acc) p)

/-- The rejection message of `can_start_crawl`. -/
def canStartMsg (maxConcurrent oldestId : Nat) : PyStr :=
  pys "Maximum concurrent crawls (" ++ pys (toString maxConcurrent) ++
    pys ") reached. Oldest active crawl: #" ++ pys (toString oldestId)

/-- `can_start_crawl()`, parameterized by the configured
`MAX_CONCURRENT_CRAWLS` and the current registry contents.  `min` over an
empty dict raises `ValueError` (only reachable when the ceiling is zero). -/
def can_start_crawl (maxConcurrent : Nat) (active : ActiveCrawls) :
    Except PyErr (Bool × Option PyStr) :=
  if active.length ≥ maxConcurrent then
    match oldestCrawl active with
    | none => .error .valueError
    | some oldest => .ok (false, some (canStartMsg maxConcurrent oldest.1))
  else
    .ok (true, none)

/-- `register_active_crawl(crawl_id)`: dict assignment (overwrite or
append). -/
def register_active_crawl (active : ActiveCrawls) (crawlId now : Nat) :
    ActiveCrawls :=
  if active.any (fun p => p.1 = crawlId) then
    active.map (fun p => if p.1 = crawlId then (crawlId, now) else p)
  else
    active ++ [(crawlId, now)]

/-- `unregister_active_crawl(crawl_id)`: delete if present. -/
def unregister_active_crawl (active : ActiveCrawls) (crawlId : Nat) :
    ActiveCrawls :=
  active.filter (fun p => p.1 ≠ crawlId)

/-- `get_active_crawl_count()`. -/
def get_active_crawl_count (active : ActiveCrawls) : Nat := active.length

/-! ### `can_fetch` (lines 225-282) -/

/-- Association-list lookup (Python dict access, first match). -/
def assocFind (m : List (PyStr × α)) (k : PyStr) : Option α :=
  (m.find? (fun p => p.1 = k)).map Prod.snd

/-- Association-list assignment (Python dict `m[k] = v`). -/
def assocSet (m : List (PyStr × α)) (k : PyStr) (v : α) : List (PyStr × α) :=
  if m.any (fun p => p.1 = k) then
    m.map (fun p => if p.1 = k then (k, v) else p)
  else m ++ [(k, v)]

/-- The robots cache: robots URL ↦ parsed rule set (an opaque handle into
the environment's `ruleAllows`) or the "no robots.txt" sentinel `none`. -/
abbrev RobotsCache := List (PyStr × Option Nat)

/-- The network/parser environment of `can_fetch`: `fetchRobots` is the
outcome of `RobotFileParser.read()` for a robots URL (`none` = the read
raised), and `ruleAllows` is `rp.can_fetch(USER_AGENT, url)` for a
successfully parsed rule set (the `urllib.robotparser` matcher, external). -/
structure RobotsEnv where
  fetchRobots : PyStr → Option Nat
  ruleAllows : Nat → PyStr → Bool

/-- `can_fetch(url, session)`, parameterized by the `CRAWL_RESPECT_ROBOTS`
switch; returns the decision and the updated cache. -/
def can_fetch (respectRobots : Bool) (env : RobotsEnv) (cache : RobotsCache)
    (url : PyStr) : Bool × RobotsCache :=
  if ¬ respectRobots then (true, cache)
  else
    match urlparse url with
    | .error _ => (true, cache)
    | .ok parsed =>
      let robotsUrl := parsed.scheme ++ pys "://" ++ parsed.netloc ++
        pys "/robots.txt"
      match assocFind cache robotsUrl with
      | some none => (true, cache)
      | some (some rp) => (env.ruleAllows rp url, cache)
      | none =>
        match env.fetchRobots robotsUrl with
        | some rp =>
          (env.ruleAllows rp url, assocSet cache robotsUrl (some rp))
        | none => (true, assocSet cache robotsUrl none)

/-! ### `download_pdf_streaming` (lines 608-756) -/

/-- The successful-download record (`file_size` and `file_hash`). -/
structure DlResult where
  fileSize : Nat
  fileHash : PyStr
  deriving DecidableEq, Repr

/-- Configuration of the downloader (`MAX_FILE_SIZE_BYTES`,
`MAX_DOWNLOAD_TIME`). -/
structure DlConfig where
  maxFileSizeBytes : Int
  maxDownloadTime : ℚ

/-- One HTTP streaming response: status, the relevant headers, and the
chunk sequence `iter_content` would yield (`none` = a transport exception
raised mid-stream). -/
structure HttpResp where
  status : Int
  contentType : PyStr
  contentDisp : PyStr
  contentLength : Option Int
  chunks : List (Option (List Nat))

/-- The environment of one `download_pdf_streaming` call: the
`verify_path_safety` verdict (filesystem/symlink resolution), the
`session.get` outcome (`none` = transport exception), the wall-clock reading
before writing the k-th chunk, the temporary file's name, and SHA-256 as an
abstract hex-digest function. -/
structure DlEnv where
  pathSafe : Bool
  getResult : Option HttpResp
  elapsed : Nat → ℚ
  tempName : PyStr
  hashHex : List Nat → PyStr

/-- Outcome of the streaming loop. -/
inductive StreamOut where
  | done (content : List Nat)
  | sizeExceeded
  | timeExceeded
  | transportError
  deriving DecidableEq

/-- The `for chunk in response.iter_content(...)` loop: falsy chunks are
skipped; each kept chunk first bumps the byte counter (abort if over the
size ceiling), then checks elapsed time, then is written. -/
def streamLoop (cfg : DlConfig) (elapsed : Nat → ℚ) :
    List (Option (List Nat)) → Nat → List Nat → Nat → StreamOut
  | [], _, content, _ => .done content
  | none :: _, _, _, _ => .transportError
  | some chunk :: rest, bytes, content, k =>
    if chunk = [] then streamLoop cfg elapsed rest bytes content k
    else
      let bytes' := bytes + chunk.length
      if (bytes' : Int) > cfg.maxFileSizeBytes then .sizeExceeded
      else if elapsed k > cfg.maxDownloadTime then .timeExceeded
      else streamLoop cfg elapsed rest bytes' (content ++ chunk) (k + 1)

/-- `download_pdf_streaming(url, save_path, session, crawl_id)`: returns the
`Optional[dict]` result and the updated set of on-disk paths.  Every failure
path returns `none` after deleting the partial temporary file; only success
atomically renames the temp file to `save_path`. -/
def download_pdf_streaming (cfg : DlConfig) (env : DlEnv)
    (url savePath : PyStr) (fs : List PyStr) :
    Option DlResult × List PyStr :=
  if ¬ env.pathSafe then (none, fs)
  else
    match env.getResult with
    | none => (none, fs)
    | some resp =>
      if resp.status ≠ 200 then (none, fs)
      else
        let contentType := pyLower resp.contentType
        let contentDisp := pyLower resp.contentDisp
        let urlHasPdf := pyIn (pys ".pdf") (pyLower url)
        let isPdfContent := pyIn (pys "application/pdf") contentType
        let isOctet := pyIn (pys "application/octet-stream") contentType
        let dispHasPdf := pyIn (pys ".pdf") contentDisp
        if ¬ isPdfContent ∧ ¬ urlHasPdf ∧ ¬ dispHasPdf ∧ ¬ isOctet then
          (none, fs)
        else if (match resp.contentLength with
                 | some n => decide (n > cfg.maxFileSizeBytes)
                 | none => false) = true then
          (none, fs)
        else
          let fs1 := env.tempName :: fs
          match streamLoop cfg env.elapsed resp.chunks 0 [] 0 with
          | .done content =>
            (some ⟨content.length, env.hashHex content⟩,
             savePath :: fs1.filter (fun p => p ≠ env.tempName))
          | _ => (none, fs1.filter (fun p => p ≠ env.tempName))

/-! ### `is_potential_document_url` (lines 452-483) -/

/-- `doc_path_keywords`. -/
def doc_path_keywords : List PyStr :=
  [pys "/download", pys "/document", pys "/getdocument", pys "/getfile",
   pys "/file/", pys "/media/", pys "/assets/", pys "/pdfs/",
   pys "/publications/", pys "/forms/", pys "/brochure", pys "/disclosure",
   pys "/resources/", pys "/policy-wording", pys "/policy-document",
   pys "/pds/", pys "/factsheet", pys "/fact-sheet", pys "/target-market",
   pys "/product-guide", pys "/claim-form", pys "/certificate",
   pys "/wp-content/uploads", pys "/sites/default/files"]

/-- `doc_text_keywords`. -/
def doc_text_keywords : List PyStr :=
  [pys "download", pys "pdf", pys "policy wording", pys "pds",
   pys "fact sheet", pys "product disclosure", pys "target market",
   pys "brochure", pys "view document", pys "open document", pys "read more",
   pys "policy document", pys "claim form", pys "product guide",
   pys "view pdf", pys "download pdf", pys "full details",
   pys "terms and conditions", pys "certificate of insurance",
   pys "supplementary", pys "endorsement"]

/-- `is_potential_document_url(url, link_text)`. -/
def is_potential_document_url (url linkText : PyStr) : Bool :=
  let urlLower := pyLower url
  let textLower := pyLower linkText
  doc_path_keywords.any (fun kw => pyIn kw urlLower) ∨
    doc_text_keywords.any (fun kw => pyIn kw textLower)

/-! ### `extract_from_sitemap` (lines 763-810) -/

/-- The ordered `sitemap_paths` list. -/
def sitemap_paths : List PyStr :=
  [pys "/sitemap.xml", pys "/sitemap_index.xml", pys "/sitemaps/sitemap.xml",
   pys "/sitemap/sitemap.xml"]

/-- Process one sitemap's `<loc>` texts: keep non-empty ones containing
`.pdf` (case-insensitively), normalized, with set semantics.  Returns the
grown set and whether a `normalize_url` exception aborted the scan (the
per-path `except` keeps the partial set and moves on). -/
def sitemapAddLocs (tracking : List PyStr) :
    List PyStr → List PyStr → List PyStr × Bool
  | acc, [] => (acc, false)
  | acc, loc :: rest =>
    if loc ≠ [] ∧ pyIn (pys ".pdf") (pyLower loc) then
      match normalize_url tracking loc with
      | .ok n =>
        sitemapAddLocs tracking (if acc.contains n then acc else acc ++ [n]) rest
      | .error _ => (acc, true)
    else
      sitemapAddLocs tracking acc rest

/-- `extract_from_sitemap(base_url, session, crawl_id)`.  The environment's
`sitemapLocs` gives, per sitemap URL, the `<loc>` texts of a 200 XML
response (`none` = non-200, non-XML, fetch error or XML parse error — all of
which make the source try the next path).  Set iteration order is modelled
as insertion order. -/
def extract_from_sitemap (tracking : List PyStr)
    (sitemapLocs : PyStr → Option (List PyStr)) (baseUrl : PyStr) :
    List PyStr :=
  go sitemap_paths []
where
  go : List PyStr → List PyStr → List PyStr
    | [], acc => acc
    | p :: rest, acc =>
      let sitemapUrl := pyRstrip '/' baseUrl ++ p
      match sitemapLocs sitemapUrl with
      | none => go rest acc
      | some locs =>
        match sitemapAddLocs tracking acc locs with
        | (acc', true) => go rest acc'
        | (acc', false) => if acc' ≠ [] then acc' else go rest acc'

/-! ### `crawl_domain` (lines 817-1154) -/

/-- ASCII whitespace strip (`str.strip()` as applied to `href` values). -/
def pyStripWs (s : PyStr) : PyStr :=
  let ws : List Char := [' ', '\t', '\n', '\r', '\x0b', '\x0c']
  ((s.dropWhile (fun c => ws.contains c)).reverse.dropWhile
    (fun c => ws.contains c)).reverse

/-- The `pdf_keywords` priority list inside the enqueue logic. -/
def pdf_keywords : List PyStr :=
  [pys "document", pys "form", pys "download", pys "pdf", pys "policy",
   pys "wording", pys "pds", pys "disclosure", pys "legal", pys "terms",
   pys "resources", pys "publications", pys "brochure", pys "guide",
   pys "factsheet", pys "fact-sheet", pys "claim", pys "certificate",
   pys "target-market", pys "product-guide", pys "media", pys "assets",
   pys "uploads", pys "files"]

/-- What BeautifulSoup extraction yields for one fetched HTML page: anchors
as `(raw href, link text)`, `iframe`/`embed`/`object` source attributes,
`data-*` attribute values, and the `.pdf`-literal regex matches from
`onclick` handlers, all in document order. -/
structure PageData where
  anchors : List (PyStr × PyStr)
  embeds : List PyStr
  dataAttrs : List PyStr
  onclickMatches : List PyStr

/-- One page-fetch outcome: HTTP status, `Content-Type` header and the
parsed page. -/
structure FetchOut where
  status : Int
  contentType : PyStr
  page : PageData

/-- The oracle environment of one `crawl_domain` run: page fetches (`none` =
request exception), the stdlib `urljoin` (opaque), the `can_fetch` robots
decision, HEAD-probe verdicts, sitemap contents, and the per-iteration
time-limit clock. -/
structure CrawlEnv where
  fetch : PyStr → Option FetchOut
  urljoin : PyStr → PyStr → PyStr
  canFetch : PyStr → Bool
  headIsPdf : PyStr → Bool
  sitemapLocs : PyStr → Option (List PyStr)
  timeUp : Nat → Bool

/-- Crawl-level configuration: `TRACKING_PARAMS`, `CRAWL_MODE`, and whether
a `time_limit` was supplied. -/
structure CrawlConfig where
  tracking : List PyStr
  mode : PyStr
  timeLimitSet : Bool

/-- The mutable state of the link-extraction part of one page visit. -/
structure PageState where
  pdfUrls : List PyStr
  queue : List PyStr
  pathDiversity : List (PyStr × Nat)
  headChecked : Nat

/-- The `<a href>` loop of a page visit (lines 970-1072).  The second
component reports an exception escaping to the per-page `except` handler,
which keeps the state mutated so far and abandons the rest of the page. -/
def anchorFold (cfg : CrawlConfig) (env : CrawlEnv)
    (seedUrl pageUrl : PyStr) (keywordFilters policyTypes : List PyStr)
    (maxPages : Nat) (visited : List PyStr) :
    List (PyStr × PyStr) → PageState → PageState × Option PyErr
  | [], st => (st, none)
  | (rawHref, linkText) :: rest, st =>
    let href := pyStripWs rawHref
    if href = [] ∨ pyStartsWith href (pys "#") ∨
        pyStartsWith href (pys "mailto:") ∨ pyStartsWith href (pys "tel:") ∨
        pyStartsWith href (pys "javascript:") then
      anchorFold cfg env seedUrl pageUrl keywordFilters policyTypes maxPages
        visited rest st
    else
      let fullUrl := env.urljoin pageUrl href
      match is_pdf_url fullUrl with
      | .error e => (st, some e)
      | .ok true =>
        match normalize_url cfg.tracking fullUrl with
        | .error e => (st, some e)
        | .ok normalized =>
          let (isValid, _) :=
            is_valid_document normalized keywordFilters policyTypes
          let st :=
            if isValid ∧ ¬ st.pdfUrls.contains normalized then
              { st with pdfUrls := st.pdfUrls ++ [normalized] }
            else st
          anchorFold cfg env seedUrl pageUrl keywordFilters policyTypes
            maxPages visited rest st
      | .ok false =>
        -- HEAD-probe block (lines 1013-1028); conditions evaluated lazily
        -- in source order, so `same_domain` only raises when reached.
        let headBlock : Except PyErr (Bool × PageState) :=
          if st.headChecked < 25 then do
            let sd ← same_domain seedUrl fullUrl
            if sd ∧ ¬ visited.contains fullUrl ∧
                ¬ st.pdfUrls.contains fullUrl ∧
                is_potential_document_url fullUrl linkText then
              let st := { st with headChecked := st.headChecked + 1 }
              if env.headIsPdf fullUrl then do
                let normalized ←
                  (normalize_url cfg.tracking fullUrl :
                    Except PyErr PyStr)
                let st :=
                  if ¬ st.pdfUrls.contains normalized then
                    { st with pdfUrls := st.pdfUrls ++ [normalized] }
                  else st
                .ok (true, st)
              else .ok (false, st)
            else .ok (false, st)
          else .ok (false, st)
        match headBlock with
        | .error e => (st, some e)
        | .ok (true, st) =>
          anchorFold cfg env seedUrl pageUrl keywordFilters policyTypes
            maxPages visited rest st
        | .ok (false, st) =>
          -- enqueue block (lines 1030-1072)
          match same_domain seedUrl fullUrl with
          | .error e => (st, some e)
          | .ok sd =>
            if sd ∧ ¬ visited.contains fullUrl then
              match urlparse fullUrl with
              | .error e => (st, some e)
              | .ok parsed =>
                let pathPrefix :=
                  pyJoin '/' ((parsed.path.splitOn '/').take 3)
                let divCount :=
                  ((st.pathDiversity.find? (fun p => p.1 = pathPrefix)).map
                    Prod.snd).getD 0
                if divCount < 20 then
                  if st.queue.length < max (maxPages * 5) 50000 then
                    let urlLower := pyLower fullUrl
                    let isPriority :=
                      pdf_keywords.any (fun kw => pyIn kw urlLower)
                    let isDiverse := divCount < 5
                    let queue :=
                      if isPriority ∨ isDiverse then
                        st.queue.insertIdx (min 10 st.queue.length) fullUrl
                      else st.queue ++ [fullUrl]
                    let st := { st with
                      queue := queue
                      pathDiversity :=
                        assocSet st.pathDiversity pathPrefix (divCount + 1) }
                    anchorFold cfg env seedUrl pageUrl keywordFilters
                      policyTypes maxPages visited rest st
                  else
                    anchorFold cfg env seedUrl pageUrl keywordFilters
                      policyTypes maxPages visited rest st
                else
                  anchorFold cfg env seedUrl pageUrl keywordFilters
                    policyTypes maxPages visited rest st
            else
              anchorFold cfg env seedUrl pageUrl keywordFilters policyTypes
                maxPages visited rest st

/-- The `iframe`/`embed`/`object` and `data-*` scans (lines 1074-1100):
any extracted target that is PDF-looking is normalized and added. -/
def embedFold (cfg : CrawlConfig) (env : CrawlEnv) (pageUrl : PyStr) :
    List PyStr → PageState → PageState × Option PyErr
  | [], st => (st, none)
  | raw :: rest, st =>
    let embedUrl := env.urljoin pageUrl (pyStripWs raw)
    match is_pdf_url embedUrl with
    | .error e => (st, some e)
    | .ok true =>
      match normalize_url cfg.tracking embedUrl with
      | .error e => (st, some e)
      | .ok normalized =>
        let st :=
          if ¬ st.pdfUrls.contains normalized then
            { st with pdfUrls := st.pdfUrls ++ [normalized] }
          else st
        embedFold cfg env pageUrl rest st
    | .ok false => embedFold cfg env pageUrl rest st

/-- The `onclick` scan (lines 1102-1115): each regex match is joined,
normalized, and added when new and same-domain. -/
def onclickFold (cfg : CrawlConfig) (env : CrawlEnv)
    (seedUrl pageUrl : PyStr) :
    List PyStr → PageState → PageState × Option PyErr
  | [], st => (st, none)
  | m :: rest, st =>
    let matchUrl := env.urljoin pageUrl m
    match normalize_url cfg.tracking matchUrl with
    | .error e => (st, some e)
    | .ok normalized =>
      match same_domain seedUrl matchUrl with
      | .error e => (st, some e)
      | .ok sd =>
        let st :=
          if ¬ st.pdfUrls.contains normalized ∧ sd then
            { st with pdfUrls := st.pdfUrls ++ [normalized] }
          else st
        onclickFold cfg env seedUrl pageUrl rest st

/-- All per-page processing of a successful HTML fetch; an exception at any
point is caught by the page-level handler, keeping the state reached. -/
def processPage (cfg : CrawlConfig) (env : CrawlEnv)
    (seedUrl pageUrl : PyStr) (keywordFilters policyTypes : List PyStr)
    (maxPages : Nat) (visited : List PyStr) (page : PageData)
    (st : PageState) : PageState :=
  match anchorFold cfg env seedUrl pageUrl keywordFilters policyTypes
      maxPages visited page.anchors st with
  | (st, some _) => st
  | (st, none) =>
    match embedFold cfg env pageUrl (page.embeds ++ page.dataAttrs) st with
    | (st, some _) => st
    | (st, none) =>
      match onclickFold cfg env seedUrl pageUrl page.onclickMatches st with
      | (st, _) => st

/-- The state of the frontier loop. -/
structure LoopState where
  queue : List PyStr
  visited : List PyStr
  pdfUrls : List PyStr
  pagesCrawled : Nat
  pathDiversity : List (PyStr × Nat)
  iter : Nat

/-- The `while queue and pages_crawled < max_pages` loop of `crawl_domain`
(lines 888-1143), fuel-driven.  Exceptions raised by the `same_domain`
check before the per-page `try` propagate to the caller. -/
def crawlLoop (cfg : CrawlConfig) (env : CrawlEnv) (seedUrl : PyStr)
    (keywordFilters policyTypes : List PyStr) (maxPages : Nat) :
    Nat → LoopState → Except PyErr LoopState
  | 0, st => .ok st
  | fuel + 1, st =>
    if st.queue = [] ∨ ¬ (st.pagesCrawled < maxPages) then .ok st
    else if cfg.timeLimitSet ∧ env.timeUp st.iter then .ok st
    else if st.visited.length > max (maxPages * 5) 100000 then .ok st
    else
      let url :=
        if cfg.mode = pys "depth" then st.queue.getLast! else st.queue.headI
      let queue :=
        if cfg.mode = pys "depth" then st.queue.dropLast else st.queue.tail
      let st := { st with queue := queue, iter := st.iter + 1 }
      if st.visited.contains url then
        crawlLoop cfg env seedUrl keywordFilters policyTypes maxPages fuel st
      else if ¬ env.canFetch url then
        crawlLoop cfg env seedUrl keywordFilters policyTypes maxPages fuel
          { st with visited := st.visited ++ [url] }
      else
        let st := { st with visited := st.visited ++ [url] }
        match same_domain seedUrl url with
        | .error e => .error e
        | .ok sd =>
          if ¬ sd then
            crawlLoop cfg env seedUrl keywordFilters policyTypes maxPages fuel
              st
          else
            let st := { st with pagesCrawled := st.pagesCrawled + 1 }
            match env.fetch url with
            | none =>
              crawlLoop cfg env seedUrl keywordFilters policyTypes maxPages
                fuel st
            | some resp =>
              if resp.status ≠ 200 then
                crawlLoop cfg env seedUrl keywordFilters policyTypes maxPages
                  fuel st
              else if ¬ pyIn (pys "text/html") (pyLower resp.contentType) then
                crawlLoop cfg env seedUrl keywordFilters policyTypes maxPages
                  fuel st
              else
                let ps := processPage cfg env seedUrl url keywordFilters
                  policyTypes maxPages st.visited resp.page
                  ⟨st.pdfUrls, st.queue, st.pathDiversity, 0⟩
                crawlLoop cfg env seedUrl keywordFilters policyTypes maxPages
                  fuel { st with
                    pdfUrls := ps.pdfUrls
                    queue := ps.queue
                    pathDiversity := ps.pathDiversity }

/-- `crawl_domain(seed_url, max_pages, ...)`: returns the discovered PDF
set, the pages actually crawled, and the (shared, mutated-in-place) visited
set.  `fuel` bounds the frontier loop's iterations; every result below is
proved for all fuel values. -/
def crawl_domain (cfg : CrawlConfig) (env : CrawlEnv) (fuel : Nat)
    (seedUrl : PyStr) (maxPages : Nat)
    (keywordFilters policyTypes : List PyStr) (globalVisited : List PyStr) :
    Except PyErr (List PyStr × Nat × List PyStr) := do
  let seedIsPdf ← is_pdf_url seedUrl
  if seedIsPdf then
    let normalized ← normalize_url cfg.tracking seedUrl
    let (isValid, _) := is_valid_document normalized keywordFilters policyTypes
    if isValid then
      return ([normalized], 1, globalVisited)
    else
      return ([], 1, globalVisited)
  else
    let parsed ← urlparse seedUrl
    let baseUrl := parsed.scheme ++ pys "://" ++ parsed.netloc
    let sitemapPdfs := extract_from_sitemap cfg.tracking env.sitemapLocs baseUrl
    let fromSitemap :=
      if sitemapPdfs ≠ [] then
        let validPdfs := sitemapPdfs.filter
          (fun u => (is_valid_document u keywordFilters policyTypes).1)
        if validPdfs ≠ [] then some validPdfs else none
      else none
    match fromSitemap with
    | some validPdfs => return (validPdfs, 1, globalVisited)
    | none =>
      let final ← crawlLoop cfg env seedUrl keywordFilters policyTypes
        maxPages fuel ⟨[seedUrl], globalVisited, [], 0, [], 0⟩
      return (final.pdfUrls, final.pagesCrawled, final.visited)

/-! ### `run_crawl_session`, scan phase (lines 1595-1659) -/

/-- The per-session oracle additions of the orchestrator: the per-seed
time-limit check. -/
structure ScanEnv where
  crawlEnv : CrawlEnv
  seedTimeUp : Nat → Bool

/-- The accumulating state of the seed loop. -/
structure ScanState where
  allPdfUrls : List PyStr
  totalPages : Nat
  remainingBudget : Int
  globalVisited : List PyStr

/-- The `for idx, seed_url in enumerate(session.seed_urls, 1)` loop:
per-seed budget `min(pages_per_seed, remaining_budget)`, stopping when the
deadline passed or the budget is exhausted. -/
def scanSeedsLoop (cfg : CrawlConfig) (env : ScanEnv) (fuel : Nat)
    (keywordFilters policyTypes : List PyStr) (pagesPerSeed : Nat) :
    List PyStr → Nat → ScanState → Except PyErr ScanState
  | [], _, st => .ok st
  | seedUrl :: rest, idx, st =>
    if cfg.timeLimitSet ∧ env.seedTimeUp idx then .ok st
    else if st.remainingBudget ≤ 0 then .ok st
    else do
      let seedBudget : Int := min (pagesPerSeed : Int) st.remainingBudget
      let (pdfUrls, pagesCrawled, visited') ←
        crawl_domain cfg env.crawlEnv fuel seedUrl seedBudget.toNat
          keywordFilters policyTypes st.globalVisited
      let st := { st with
        allPdfUrls := st.allPdfUrls ++
          pdfUrls.filter (fun u => ¬ st.allPdfUrls.contains u)
        totalPages := st.totalPages + pagesCrawled
        remainingBudget := st.remainingBudget - (pagesCrawled : Int)
        globalVisited := visited' }
      scanSeedsLoop cfg env fuel keywordFilters policyTypes pagesPerSeed rest
        (idx + 1) st

/-- The scan phase of `run_crawl_session`: seed budgeting
(`pages_per_seed = max(3, max_pages // max(1, num_seeds))`), the seed loop,
and the cumulative `pages_scanned` (= the final `total_pages`). -/
def runCrawlSessionScan (cfg : CrawlConfig) (env : ScanEnv) (fuel : Nat)
    (seedUrls : List PyStr) (maxPages : Nat)
    (keywordFilters policyTypes : List PyStr) :
    Except PyErr ScanState :=
  let numSeeds := seedUrls.length
  let pagesPerSeed := max 3 (maxPages / max 1 numSeeds)
  scanSeedsLoop cfg env fuel keywordFilters policyTypes pagesPerSeed
    seedUrls 1 ⟨[], 0, (maxPages : Int), []⟩

/-! ### `extract_insurer_name` (lines 574-580) -/

/-- `extract_insurer_name(url)` (parameterized by `str.isalnum` like
`sanitize_filename`).  `domain.replace('www.', '')` uses `str.replace`, not
`removeprefix`, exactly as the source does. -/
def extract_insurer_name (isalnum : Char → Bool) (url : PyStr) :
    Except PyErr PyStr := do
  let parsed ← urlparse url
  let domain := pyReplace parsed.netloc (pys "www.") (pys "")
  let parts := domain.splitOn '.'
  let rawName := if parts ≠ [] then pyTitle parts.headI else pys "Unknown"
  return sanitize_filename isalnum rawName

/-! ### `run_crawl_session`, candidate phase (lines 1661-1898)

The download/persist loop manipulates its tally variables
(`downloaded_count`, `filtered_count`, `duplicate_count`, `error_count`)
through an explicit local-variable environment with Python's semantics: an
augmented assignment to a name that has no prior binding in the function
raises `UnboundLocalError` (a `NameError`).  This is load-bearing: the
hash-match-but-file-missing branch executes `download_count += 1`
(line 1763), and `download_count` is bound nowhere in `run_crawl_session`. -/

/-- Errors that can escape a candidate-processing step. -/
inductive SessErr where
  | unboundLocal (name : PyStr)
  | sqlAlchemy
  | valueError
  deriving DecidableEq, Repr

/-- Lift an embedded-stdlib error. -/
def SessErr.ofPyErr : PyErr → SessErr
  | .valueError => .valueError

/-- Python local-variable environment (name ↦ int value). -/
abbrev VarEnv := List (PyStr × Int)

/-- Read a local variable. -/
def envGet (e : VarEnv) (x : PyStr) : Option Int :=
  (e.find? (fun p => p.1 = x)).map Prod.snd

/-- Assign a local variable. -/
def envSet (e : VarEnv) (x : PyStr) (v : Int) : VarEnv :=
  if e.any (fun p => p.1 = x) then
    e.map (fun p => if p.1 = x then (x, v) else p)
  else e ++ [(x, v)]

/-- Python `x += k`: `UnboundLocalError` when `x` has no prior binding. -/
def augAdd (e : VarEnv) (x : PyStr) (k : Int) : Except SessErr VarEnv :=
  match envGet e x with
  | some v => .ok (envSet e x (v + k))
  | none => .error (.unboundLocal x)

/-- The tallies initialized at lines 1662-1665 (`downloaded_count`,
`filtered_count`, `duplicate_count`, `error_count`; no `download_count`). -/
def initialCounters : VarEnv :=
  [(pys "downloaded_count", 0), (pys "filtered_count", 0),
   (pys "duplicate_count", 0), (pys "error_count", 0)]

/-- One `Document` row (the fields the candidate loop reads or writes). -/
structure DbDocument where
  id : Nat
  sourceUrl : PyStr
  insurer : PyStr
  localFilePath : Option PyStr
  fileSize : Int
  fileHash : PyStr
  country : PyStr
  policyType : PyStr
  classification : PyStr
  confidence : ℚ
  status : PyStr
  warningsList : Option (List PyStr)
  crawlSessionId : Option Nat
  deriving DecidableEq, Repr

/-- `os.path.basename` (POSIX). -/
def pyBasename (p : PyStr) : PyStr :=
  match pyRfindChar p '/' with
  | none => p
  | some i => p.drop (i + 1)

/-- `pathlib.Path(...).name`. -/
def pathName (p : PyStr) : PyStr := pyBasename p

/-- `pathlib.Path(...).suffix`. -/
def pathSuffix (p : PyStr) : PyStr :=
  match pyRfindChar (pathName p) '.' with
  | none => []
  | some i => if i = 0 then [] else (pathName p).drop i

/-- `pathlib.Path(...).stem`. -/
def pathStem (p : PyStr) : PyStr :=
  (pathName p).take ((pathName p).length - (pathSuffix p).length)

/-- `RAW_STORAGE_DIR / a / b` as a path string (the storage-root prefix is
common to every path and elided). -/
def mkPath (a b : PyStr) : PyStr := a ++ '/' :: b

/-- The `while True` filename-collision loop (lines 1709-1716), fuel-driven:
the first of `filename, base_1.pdf, base_2.pdf, ...` whose path does not
exist.  (The source's loop always terminates on a finite filesystem; fuel
exhaustion returns the last candidate and is unreachable in every
instantiation below.) -/
def uniqueFilename (fs : List PyStr) (insurer baseName : PyStr) :
    Nat → Nat → PyStr → PyStr
  | 0, _, filename => filename
  | fuel + 1, counter, filename =>
    if ¬ fs.contains (mkPath insurer filename) then filename
    else
      uniqueFilename fs insurer baseName fuel
        (counter + 1) (baseName ++ '_' :: pys (toString counter) ++ pys ".pdf")

/-- The analogous collision loop for the post-classification move
(lines 1798-1804). -/
def uniqueMovePath (fs : List PyStr) (policyDir base ext localPath : PyStr) :
    Nat → Nat → PyStr → PyStr
  | 0, _, path => path
  | fuel + 1, counter, path =>
    if ¬ (fs.contains path ∧ path ≠ localPath) then path
    else
      uniqueMovePath fs policyDir base ext localPath fuel (counter + 1)
        (mkPath policyDir (base ++ '_' :: pys (toString counter) ++ ext))

/-- Oracles for one candidate-phase run: the per-candidate deadline check,
the result of `download_pdf_streaming` per (url, path), the extracted PDF
text sample, whether the `shutil.move` raises, which `db.commit()` calls
raise `SQLAlchemyError`, the metadata clock, and `str.isalnum`. -/
structure CandEnv where
  candTimeUp : Nat → Bool
  download : PyStr → PyStr → Option DlResult
  pdfText : PyStr → Option PyStr
  moveRaises : Bool
  commitFails : Nat → Bool
  now : PyStr
  isalnum : Char → Bool

/-- Session-level mutable state during the candidate phase. -/
structure CandState where
  docs : List DbDocument
  fs : List PyStr
  counters : VarEnv
  pdfsDownloaded : Int
  progressPct : Int
  errorsCount : Int
  commitIdx : Nat
  deriving Repr

/-- `db.commit()`: consults the environment's failure oracle. -/
def dbCommit (env : CandEnv) (st : CandState) : Except SessErr CandState :=
  if env.commitFails st.commitIdx then .error .sqlAlchemy
  else .ok { st with commitIdx := st.commitIdx + 1 }

/-- Outcome of one candidate iteration. -/
inductive CandOutcome where
  | next
  | breakLoop
  deriving DecidableEq, Repr

/-- Python `a or b` for falsy strings. -/
def orStr (a b : PyStr) : PyStr := if a = [] then b else a

/-- The body of the inner `try` (lines 1725-1871): duplicate check, refresh
or classification+insert, caught only for `SQLAlchemyError`.  State is
returned alongside the error so mutations before an exception persist. -/
def candidateTryBlock (_cfg : CrawlConfig) (env : CandEnv) (sessionId : Nat)
    (country : PyStr) (numCandidates idx : Nat) (pdfUrl : PyStr)
    (policyType : Option PyStr) (insurer filename localPath : PyStr)
    (result : DlResult) (st : CandState) :
    Except SessErr CandState × CandState :=
  match st.docs.find? (fun d => d.fileHash = result.fileHash) with
  | some existingDoc =>
    if (match existingDoc.localFilePath with
        | some p => st.fs.contains p
        | none => false) = true then
      -- true duplicate: delete the fresh copy, count it, skip
      let st := { st with fs := st.fs.filter (fun p => p ≠ localPath) }
      match augAdd st.counters (pys "duplicate_count") 1 with
      | .error e => (.error e, st)
      | .ok c1 =>
        match augAdd c1 (pys "filtered_count") 1 with
        | .error e => (.error e, { st with counters := c1 })
        | .ok c2 => (.ok { st with counters := c2 },
                     { st with counters := c2 })
    else
      -- hash match but file missing: refresh the existing row in place
      let st := { st with docs := st.docs.map (fun d =>
        if d.id = existingDoc.id then
          { d with
            localFilePath := some localPath
            sourceUrl := pdfUrl
            fileSize := (result.fileSize : Int)
            crawlSessionId := some sessionId }
        else d) }
      match dbCommit env st with
      | .error e => (.error e, st)
      | .ok st =>
        -- line 1763: `download_count += 1` -- never bound in the function
        match augAdd st.counters (pys "download_count") 1 with
        | .error e => (.error e, st)
        | .ok c => (.ok { st with counters := c }, { st with counters := c })
  | none =>
    -- classification pipeline and insert
    let pdfText := env.pdfText localPath
    match classify_document pdfUrl filename
        (orStr (policyType.getD []) (pys "General"))
        (some (result.fileSize : Int)) pdfText env.now with
    | .error e => (.error (SessErr.ofPyErr e), st)
    | .ok classification =>
      let docInsurer := orStr ((classification.insurerName).getD []) insurer
      let docPolicyType := orStr classification.detectedPolicyType
        (orStr (policyType.getD []) (pys "General"))
      let newLocalPath0 := mkPath docPolicyType (pathName localPath)
      let newLocalPath :=
        if st.fs.contains newLocalPath0 ∧ newLocalPath0 ≠ localPath then
          uniqueMovePath st.fs docPolicyType (pathStem localPath)
            (pathSuffix localPath) localPath (st.fs.length + 2) 1 newLocalPath0
        else newLocalPath0
      let (localPath, st) :=
        if env.moveRaises then (localPath, st)
        else if st.fs.contains localPath ∧ localPath ≠ newLocalPath then
          (newLocalPath,
           { st with fs := newLocalPath ::
              st.fs.filter (fun p => p ≠ localPath) })
        else (localPath, st)
      let doc : DbDocument :=
        { id := st.docs.length + 1
          sourceUrl := pdfUrl
          insurer := docInsurer
          localFilePath := some localPath
          fileSize := (result.fileSize : Int)
          fileHash := result.fileHash
          country := country
          policyType := docPolicyType
          classification := classification.classification
          confidence := classification.confidence
          status := classification.status
          warningsList :=
            if classification.warnings ≠ [] then some classification.warnings
            else none
          crawlSessionId := some sessionId }
      let st := { st with docs := st.docs ++ [doc] }
      match augAdd st.counters (pys "downloaded_count") 1 with
      | .error e => (.error e, st)
      | .ok c =>
        let downloaded := (envGet c (pys "downloaded_count")).getD 0
        let st := { st with
          counters := c
          pdfsDownloaded := downloaded
          progressPct := 50 + min 50 ((idx * 50) / max numCandidates 1) }
        match dbCommit env st with
        | .error e => (.error e, st)
        | .ok st => (.ok st, st)

/-- One iteration of the candidate loop (lines 1674-1876): deadline check,
re-filter, filename generation, download, then the guarded `try` block with
its `SQLAlchemyError` handler. -/
def processCandidate (cfg : CrawlConfig) (env : CandEnv) (sessionId : Nat)
    (keywordFilters policyTypes : List PyStr) (country : PyStr)
    (numCandidates idx : Nat) (pdfUrl : PyStr) (st : CandState) :
    Except SessErr CandOutcome × CandState :=
  if cfg.timeLimitSet ∧ env.candTimeUp idx then (.ok .breakLoop, st)
  else
    let (isValid, policyType) :=
      is_valid_document pdfUrl keywordFilters policyTypes
    if ¬ isValid then
      match augAdd st.counters (pys "filtered_count") 1 with
      | .error e => (.error e, st)
      | .ok c => (.ok .next, { st with counters := c })
    else
      match extract_insurer_name env.isalnum pdfUrl with
      | .error e => (.error (SessErr.ofPyErr e), st)
      | .ok insurer =>
        match urlparse pdfUrl with
        | .error e => (.error (SessErr.ofPyErr e), st)
        | .ok parsed =>
          let filename0 := orStr (pyBasename parsed.path) (pys "document.pdf")
          let filename1 := sanitize_filename env.isalnum filename0
          let filename2 :=
            if ¬ pyEndsWith filename1 (pys ".pdf") then filename1 ++ pys ".pdf"
            else filename1
          let baseName := pyReplace filename2 (pys ".pdf") (pys "")
          let filename := uniqueFilename st.fs insurer baseName
            (st.fs.length + 2) 1 filename2
          let localPath := mkPath insurer filename
          match env.download pdfUrl localPath with
          | none =>
            match augAdd st.counters (pys "error_count") 1 with
            | .error e => (.error e, st)
            | .ok c =>
              let st := { st with
                counters := c, errorsCount := st.errorsCount + 1 }
              match dbCommit env st with
              | .error e => (.error e, st)
              | .ok st => (.ok .next, st)
          | some result =>
            -- the streaming download published the file at `localPath`
            let st := { st with fs := localPath :: st.fs }
            match candidateTryBlock cfg env sessionId country numCandidates
                idx pdfUrl policyType insurer filename localPath result st with
            | (.ok st', _) => (.ok .next, st')
            | (.error .sqlAlchemy, st') =>
              -- `except SQLAlchemyError` (lines 1864-1871)
              match augAdd st'.counters (pys "error_count") 1 with
              | .error e => (.error e, st')
              | .ok c =>
                let st' := { st' with
                  counters := c, errorsCount := st'.errorsCount + 1 }
                match dbCommit env st' with
                | .error e => (.error e, st')
                | .ok st' => (.ok .next, st')
            | (.error e, st') => (.error e, st')

/-- The whole candidate loop; a non-`SQLAlchemyError` exception escaping an
iteration aborts the phase (and the session is then marked `failed` by the
outer handler). -/
def candidatePhase (cfg : CrawlConfig) (env : CandEnv) (sessionId : Nat)
    (keywordFilters policyTypes : List PyStr) (country : PyStr)
    (numCandidates : Nat) :
    List PyStr → Nat → CandState → Except SessErr CandState × CandState
  | [], _, st => (.ok st, st)
  | u :: rest, idx, st =>
    match processCandidate cfg env sessionId keywordFilters policyTypes
        country numCandidates idx u st with
    | (.ok .next, st') =>
      candidatePhase cfg env sessionId keywordFilters policyTypes country
        numCandidates rest (idx + 1) st'
    | (.ok .breakLoop, st') => (.ok st', st')
    | (.error e, st') => (.error e, st')

/-- The session's terminal status as a function of the candidate phase's
outcome: any escaping exception reaches the handlers at lines 1900-1912 and
the session is marked `failed`; otherwise line 1879 marks it `completed`. -/
def sessionFinalStatus (outcome : Except SessErr CandState) : PyStr :=
  match outcome with
  | .ok _ => pys "completed"
  | .error _ => pys "failed"


end CrawlService

/-!
## Theorems

Each claim of the specification gets exactly one theorem below (with a
witness when the theorem carries hypotheses, and a counterexample when the
claim as stated fails on the code).
-/

namespace CrawlServiceProofs

open CrawlService Py PyStrOps

/-! ### Claim C2 — PDF URLs and the candidate filter -/

/-- Claim C2 counterexample: `/download/policy.pdf/view` satisfies
`is_pdf_url` (`.pdf` occurs in the path), yet with empty filter lists
`is_valid_document` rejects it — its fallback only accepts URLs whose text
ends in `.pdf` or `.pdf/`.  So the filters can exclude a PDF URL outright,
contrary to the claim. -/
theorem C2_counterexample :
    is_pdf_url (pys "https://x.com/download/policy.pdf/view") =
      .ok true ∧
    is_valid_document (pys "https://x.com/download/policy.pdf/view") [] [] =
      (false, none) := by
  constructor <;> decide

/-- Claim C2 (amended): for every URL whose lower-cased text ends in `.pdf`
or `.pdf/`, and every choice of keyword and policy-type filter lists,
`is_valid_document` accepts it (every branch of the function that fires on
such a URL returns `true`); URLs that are PDF URLs only via a `.pdf`
occurring mid-path or in the query string may be rejected when no filter
matches. -/
theorem C2_pdf_suffix_always_accepted (url : PyStr)
    (keywordFilters policyTypes : List PyStr)
    (h : pyEndsWith (pyLower url) (pys ".pdf") = true ∨
         pyEndsWith (pyLower url) (pys ".pdf/") = true) :
    (is_valid_document url keywordFilters policyTypes).1 = true := by
  simp only [is_valid_document]
  cases hm : firstMatchingPolicyType (pyLower url) policyTypes with
  | some pt => rfl
  | none =>
    by_cases h1 : keywordFilters ≠ [] ∧
        (keywordFilters.any fun kw => pyIn (pyLower kw) (pyLower url)) = true
    · simp [h1]
    · by_cases h2 : pyEndsWith (pyLower url) (pys ".pdf") = true ∨
          pyEndsWith (pyLower url) (pys ".pdf/") = true
      · simp [h1, h2]
      · exact absurd h h2

/-- Witness for `C2_pdf_suffix_always_accepted` at a concrete accepted
input. -/
theorem C2_witness :
    (pyEndsWith (pyLower (pys "https://x.com/Policy.PDF")) (pys ".pdf") = true ∨
     pyEndsWith (pyLower (pys "https://x.com/Policy.PDF")) (pys ".pdf/") = true) ∧
    (is_valid_document (pys "https://x.com/Policy.PDF") [] []).1 = true :=
  ⟨Or.inl (by decide),
   C2_pdf_suffix_always_accepted (pys "https://x.com/Policy.PDF") [] []
     (Or.inl (by decide))⟩

/-! ### Claim C10 — `sanitize_filename` safety -/

/-- The first element surviving `dropWhile` fails the predicate. -/
theorem head_dropWhile_false {p : Char → Bool} :
    ∀ (l : PyStr) (c : Char) (t : PyStr),
      l.dropWhile p = c :: t → p c = false := by
  intro l
  induction l with
  | nil => intro c t h; cases h
  | cons x xs ih =>
    intro c t h
    by_cases hx : p x = true
    · rw [List.dropWhile_cons_of_pos hx] at h
      exact ih c t h
    · rw [List.dropWhile_cons_of_neg hx] at h
      cases h
      exact Bool.not_eq_true _ |>.mp hx

/-- `sanitize_filename` as a composition, for reasoning stage by stage. -/
theorem sanitize_filename_eq (isalnum : Char → Bool) (name : PyStr) :
    sanitize_filename isalnum name =
      (fun s3 : PyStr => if s3.length > 200 then s3.take 200 else s3)
        ((fun s2 : PyStr =>
            if pyLstrip '.' s2 = [] then pys "unknown" else pyLstrip '.' s2)
          ((pyReplace (pyReplace (pyReplace name (pys "/") (pys "_"))
              (pys "\\") (pys "_")) (pys "..") (pys "_")).filter
            (fun c => isalnum c ∨ c = '_' ∨ c = '-' ∨ c = '.'))) := rfl

/-- The stage-2-onward part of the Claim C10 argument, for an arbitrary
already-filtered string. -/
theorem sanitize_tail_safe (isalnum : Char → Bool)
    (hslash : isalnum '/' = false) (hback : isalnum '\\' = false)
    (hlower : ∀ c : Char, 'a' ≤ c → c ≤ 'z' → isalnum c = true)
    (s2 : PyStr)
    (hmem2 : ∀ c ∈ s2, isalnum c = true ∨ c = '_' ∨ c = '-' ∨ c = '.') :
    ∀ r, r = (fun s3 : PyStr => if s3.length > 200 then s3.take 200 else s3)
        ((fun s2 : PyStr =>
            if pyLstrip '.' s2 = [] then pys "unknown" else pyLstrip '.' s2)
          s2) →
      r ≠ [] ∧ r.length ≤ 200 ∧
      (∀ c ∈ r, isalnum c = true ∨ c = '_' ∨ c = '-' ∨ c = '.') ∧
      (∀ c t, r = c :: t → c ≠ '.') ∧ '/' ∉ r ∧ '\\' ∉ r := by
  intro r hr
  simp only [] at hr
  have hunk : ∀ c ∈ pys "unknown", 'a' ≤ c ∧ c ≤ 'z' := by decide
  by_cases h3 : pyLstrip '.' s2 = []
  · rw [if_pos h3] at hr
    have hlen : ¬ ((pys "unknown").length > 200) := by decide
    rw [if_neg hlen] at hr
    subst hr
    refine ⟨by decide, by decide, ?_, ?_, by decide, by decide⟩
    · intro c hc
      exact Or.inl (hlower c (hunk c hc).1 (hunk c hc).2)
    · intro c t h hdot
      subst hdot
      have := hunk '.' (by rw [h]; exact List.mem_cons_self _ _)
      exact absurd this (by decide)
  · rw [if_neg h3] at hr
    have hmem3 : ∀ c ∈ pyLstrip '.' s2,
        isalnum c = true ∨ c = '_' ∨ c = '-' ∨ c = '.' := by
      intro c hc
      exact hmem2 c ((List.dropWhile_sublist _).subset hc)
    have hmemr : ∀ c ∈ r, isalnum c = true ∨ c = '_' ∨ c = '-' ∨ c = '.' := by
      intro c hc
      rw [hr] at hc
      split at hc
      · exact hmem3 c (List.take_subset _ _ hc)
      · exact hmem3 c hc
    have hhead : ∀ c t, r = c :: t → c ≠ '.' := by
      intro c t hct hcdot
      subst hcdot
      have : ∃ t', pyLstrip '.' s2 = '.' :: t' := by
        rw [hr] at hct
        split at hct
        · cases h4 : pyLstrip '.' s2 with
          | nil => exact absurd h4 h3
          | cons a t4 =>
            rw [h4] at hct
            have ha : a = '.' := by
              have := congrArg List.head? hct
              simpa [List.take_succ_cons] using this
            exact ⟨t4, by rw [ha]⟩
        · exact ⟨t, hct⟩
      obtain ⟨t', ht'⟩ := this
      have := head_dropWhile_false (p := fun x => x = '.') s2 '.' t' ht'
      simp at this
    refine ⟨?_, ?_, hmemr, hhead, ?_, ?_⟩
    · intro hnil
      rw [hr] at hnil
      split at hnil
      · rename_i hgt
        have := congrArg List.length hnil
        rw [List.length_take] at this
        rcases Nat.min_eq_zero_iff.mp this with h | h
        · exact absurd h (by decide)
        · omega
      · exact h3 hnil
    · rw [hr]
      split
      · rw [List.length_take]
        exact Nat.min_le_left _ _
      · rename_i hle
        omega
    · intro hmem
      rcases hmemr '/' hmem with h | h | h | h
      · rw [hslash] at h; cases h
      all_goals cases h
    · intro hmem
      rcases hmemr '\\' hmem with h | h | h | h
      · rw [hback] at h; cases h
      all_goals cases h

/-- Claim C10: for every input string, `sanitize_filename` returns a
non-empty string of at most 200 characters whose characters are all
alphanumeric (per the supplied `str.isalnum` predicate, assumed — as for
Python's — to hold on ASCII lower-case letters and to fail on `/` and `\\`)
or `_`, `-`, `.`; the result does not begin with a period and contains no
`/` or `\\` path separator, so it can never name a path outside its parent
directory. -/
theorem C10_sanitize_filename_safe (isalnum : Char → Bool) (name : PyStr)
    (hslash : isalnum '/' = false) (hback : isalnum '\\' = false)
    (hlower : ∀ c : Char, 'a' ≤ c → c ≤ 'z' → isalnum c = true) :
    sanitize_filename isalnum name ≠ [] ∧
    (sanitize_filename isalnum name).length ≤ 200 ∧
    (∀ c ∈ sanitize_filename isalnum name,
      isalnum c = true ∨ c = '_' ∨ c = '-' ∨ c = '.') ∧
    (∀ c t, sanitize_filename isalnum name = c :: t → c ≠ '.') ∧
    '/' ∉ sanitize_filename isalnum name ∧
    '\\' ∉ sanitize_filename isalnum name := by
  have hmem2 : ∀ c ∈ (pyReplace (pyReplace (pyReplace name (pys "/")
      (pys "_")) (pys "\\") (pys "_")) (pys "..") (pys "_")).filter
        (fun c => isalnum c ∨ c = '_' ∨ c = '-' ∨ c = '.'),
      isalnum c = true ∨ c = '_' ∨ c = '-' ∨ c = '.' := by
    intro c hc
    simpa using List.of_mem_filter hc
  have := sanitize_tail_safe isalnum hslash hback hlower _ hmem2
    (sanitize_filename isalnum name) (sanitize_filename_eq isalnum name)
  exact this

/-- Witness for `C10_sanitize_filename_safe` with Python's ASCII-range
`isalnum` behaviour on a traversal-attempt input. -/
theorem C10_witness :
    ((fun c : Char => c.isAlphanum) '/' = false) ∧
    sanitize_filename (fun c : Char => c.isAlphanum)
      (pys "../../etc/passwd") ≠ [] :=
  ⟨by decide,
   (C10_sanitize_filename_safe (fun c : Char => c.isAlphanum)
     (pys "../../etc/passwd") (by decide) (by decide)
     (fun c h1 h2 => by
       simp [Char.isAlphanum, Char.isAlpha, Char.isLower]
       exact Or.inl (Or.inr ⟨h1, h2⟩))).1⟩

/-! ### Claim C4 — `can_start_crawl` and the concurrency ceiling -/

/-- The `min`-by-start-time fold of `oldestCrawl` returns a registered entry
whose start time is minimal among all entries. -/
theorem foldlMin_spec (l : List (Nat × Nat)) (p : Nat × Nat) :
    (l.foldl (fun acc q => if q.2 < acc.2 then q else acc) p) ∈ p :: l ∧
    ∀ q ∈ p :: l,
      (l.foldl (fun acc q => if q.2 < acc.2 then q else acc) p).2 ≤ q.2 := by
  induction l generalizing p with
  | nil => simp
  | cons a t ih =>
    simp only [List.foldl_cons]
    rcases ih (if a.2 < p.2 then a else p) with ⟨hmem, hbd⟩
    have hp2 : (t.foldl (fun acc q => if q.2 < acc.2 then q else acc)
        (if a.2 < p.2 then a else p)).2 ≤ (if a.2 < p.2 then a else p).2 :=
      hbd _ (List.mem_cons_self _ _)
    constructor
    · rcases List.mem_cons.mp hmem with h | h
      · rw [h]
        split
        · exact List.mem_cons_of_mem _ (List.mem_cons_self _ _)
        · exact List.mem_cons_self _ _
      · exact List.mem_cons_of_mem _ (List.mem_cons_of_mem _ h)
    · intro q hq
      by_cases hc : a.2 < p.2
      · rw [if_pos hc] at hp2 ⊢
        rcases List.mem_cons.mp hq with h | hq
        · rw [h]; omega
        rcases List.mem_cons.mp hq with h | hq
        · rw [h]; omega
        · have hb2 := hbd q (List.mem_cons_of_mem _ hq)
          rw [if_pos hc] at hb2
          exact hb2
      · rw [if_neg hc] at hp2 ⊢
        rcases List.mem_cons.mp hq with h | hq
        · rw [h]; omega
        rcases List.mem_cons.mp hq with h | hq
        · rw [h]; omega
        · have hb2 := hbd q (List.mem_cons_of_mem _ hq)
          rw [if_neg hc] at hb2
          exact hb2

/-- Claim C4: provided the ceiling is at least 1, `can_start_crawl` succeeds
and returns `true` exactly when the active count is strictly below the
ceiling; whenever the count has reached the ceiling it returns `false`
together with a reason string naming an active crawl whose start timestamp
is minimal (the oldest active crawl). -/
theorem C4_can_start_crawl (maxConcurrent : Nat) (active : ActiveCrawls)
    (hmc : 1 ≤ maxConcurrent) :
    (∀ b reason,
      can_start_crawl maxConcurrent active = .ok (b, reason) →
      (b = true ↔ active.length < maxConcurrent)) ∧
    (active.length ≥ maxConcurrent →
      ∃ o, o ∈ active ∧ (∀ q ∈ active, o.2 ≤ q.2) ∧
        can_start_crawl maxConcurrent active =
          .ok (false, some (canStartMsg maxConcurrent o.1))) := by
  constructor
  · intro b reason hok
    unfold can_start_crawl at hok
    split at hok
    · rename_i hge
      cases active with
      | nil =>
        simp only [List.length_nil] at hge
        omega
      | cons p rest =>
        simp only [oldestCrawl] at hok
        simp only [Except.ok.injEq, Prod.mk.injEq] at hok
        rcases hok with ⟨hb, _⟩
        subst hb
        simp only [Bool.false_eq_true, false_iff, not_lt]
        simpa using hge
    · rename_i hlt
      simp only [Except.ok.injEq, Prod.mk.injEq] at hok
      rcases hok with ⟨hb, _⟩
      subst hb
      simp only [true_iff]
      omega
  · intro hge
    cases active with
    | nil =>
      simp only [List.length_nil] at hge
      omega
    | cons p rest =>
      rcases foldlMin_spec rest p with ⟨hmem, hbd⟩
      refine ⟨_, hmem, hbd, ?_⟩
      unfold can_start_crawl
      rw [if_pos hge]
      rfl

/-- Witness for `C4_can_start_crawl`: ceiling 2, two active crawls
(crawl 7 started earliest). -/
theorem C4_witness :
    1 ≤ 2 ∧
    ((∀ b reason,
        can_start_crawl 2 [(5, 10), (7, 4)] = .ok (b, reason) →
        (b = true ↔ List.length [(5, 10), (7, 4)] < 2)) ∧
      (List.length [(5, 10), (7, 4)] ≥ 2 →
        ∃ o, o ∈ [(5, 10), (7, 4)] ∧
          (∀ q ∈ [(5, 10), (7, 4)], o.2 ≤ q.2) ∧
          can_start_crawl 2 [(5, 10), (7, 4)] =
            .ok (false, some (canStartMsg 2 o.1)))) :=
  ⟨by decide, C4_can_start_crawl 2 [(5, 10), (7, 4)] (by decide)⟩

/-! ### Claim C8 — `can_fetch` fails open -/

/-- Evaluation of `can_fetch` when robots compliance is disabled. -/
theorem can_fetch_off (respectRobots : Bool) (env : RobotsEnv)
    (cache : RobotsCache) (url : PyStr) (hr : respectRobots = false) :
    can_fetch respectRobots env cache url = (true, cache) := by
  subst hr
  simp [can_fetch]

/-- Evaluation of `can_fetch` when `urlparse` raises. -/
theorem can_fetch_err (respectRobots : Bool) (env : RobotsEnv)
    (cache : RobotsCache) (url : PyStr) (e : PyErr)
    (he : urlparse url = .error e) :
    can_fetch respectRobots env cache url = (true, cache) := by
  unfold can_fetch
  rw [he]
  split
  · rfl
  · rfl

/-- Evaluation of `can_fetch` when compliance is on and the URL parses. -/
theorem can_fetch_ok (respectRobots : Bool) (env : RobotsEnv)
    (cache : RobotsCache) (url robotsUrl : PyStr) (parsed : ParseResult)
    (hp : urlparse url = .ok parsed) (hr : respectRobots = true)
    (hru : robotsUrl =
      parsed.scheme ++ pys "://" ++ parsed.netloc ++ pys "/robots.txt") :
    can_fetch respectRobots env cache url =
      match assocFind cache robotsUrl with
      | some none => (true, cache)
      | some (some rp) => (env.ruleAllows rp url, cache)
      | none =>
        match env.fetchRobots robotsUrl with
        | some rp =>
          (env.ruleAllows rp url, assocSet cache robotsUrl (some rp))
        | none => (true, assocSet cache robotsUrl none) := by
  subst hru hr
  unfold can_fetch
  rw [hp]
  simp

/-- Claim C8: `can_fetch` fails open — it allows whenever robots compliance
is administratively disabled, whenever URL parsing raises, whenever the
cache records the origin as having no robots file, and whenever fetching
the robots file fails; it returns `false` only when compliance is on and a
successfully fetched-and-parsed rule set disallows the URL. -/
theorem C8_can_fetch_fails_open (respectRobots : Bool) (env : RobotsEnv)
    (cache : RobotsCache) (url : PyStr) :
    (respectRobots = false →
      (can_fetch respectRobots env cache url).1 = true) ∧
    (∀ e, urlparse url = .error e →
      (can_fetch respectRobots env cache url).1 = true) ∧
    (∀ parsed robotsUrl, urlparse url = .ok parsed →
      robotsUrl = parsed.scheme ++ pys "://" ++ parsed.netloc ++
        pys "/robots.txt" →
      (assocFind cache robotsUrl = some none →
        (can_fetch respectRobots env cache url).1 = true) ∧
      (assocFind cache robotsUrl = none →
        env.fetchRobots robotsUrl = none →
        (can_fetch respectRobots env cache url).1 = true)) ∧
    ((can_fetch respectRobots env cache url).1 = false →
      respectRobots = true ∧
      ∃ parsed rp,
        urlparse url = .ok parsed ∧
        (assocFind cache (parsed.scheme ++ pys "://" ++ parsed.netloc ++
            pys "/robots.txt") = some (some rp) ∨
          (assocFind cache (parsed.scheme ++ pys "://" ++ parsed.netloc ++
              pys "/robots.txt") = none ∧
            env.fetchRobots (parsed.scheme ++ pys "://" ++ parsed.netloc ++
              pys "/robots.txt") = some rp)) ∧
        env.ruleAllows rp url = false) := by
  refine ⟨?_, ?_, ?_, ?_⟩
  · intro hr
    rw [can_fetch_off respectRobots env cache url hr]
  · intro e he
    rw [can_fetch_err respectRobots env cache url e he]
  · intro parsed robotsUrl hp hru
    by_cases hr : respectRobots = true
    · rw [can_fetch_ok respectRobots env cache url robotsUrl parsed hp hr hru]
      constructor
      · intro hc
        rw [hc]
      · intro hc hf
        rw [hc, hf]
    · have hr0 : respectRobots = false := by
        cases respectRobots
        · rfl
        · exact absurd rfl hr
      constructor
      · intro _
        rw [can_fetch_off respectRobots env cache url hr0]
      · intro _ _
        rw [can_fetch_off respectRobots env cache url hr0]
  · intro hfalse
    by_cases hr : respectRobots = true
    · refine ⟨hr, ?_⟩
      cases hu : urlparse url with
      | error e =>
        rw [can_fetch_err respectRobots env cache url e hu] at hfalse
        exact Bool.noConfusion hfalse
      | ok parsed =>
        rw [can_fetch_ok respectRobots env cache url
          (parsed.scheme ++ pys "://" ++ parsed.netloc ++ pys "/robots.txt")
          parsed hu hr rfl] at hfalse
        cases hc : assocFind cache
            (parsed.scheme ++ pys "://" ++ parsed.netloc ++
              pys "/robots.txt") with
        | none =>
          rw [hc] at hfalse
          cases hf : env.fetchRobots
              (parsed.scheme ++ pys "://" ++ parsed.netloc ++
                pys "/robots.txt") with
          | none =>
            rw [hf] at hfalse
            exact Bool.noConfusion hfalse
          | some rp =>
            rw [hf] at hfalse
            exact ⟨parsed, rp, rfl, Or.inr ⟨hc, hf⟩, hfalse⟩
        | some o =>
          cases o with
          | none =>
            rw [hc] at hfalse
            exact Bool.noConfusion hfalse
          | some rp =>
            rw [hc] at hfalse
            exact ⟨parsed, rp, rfl, Or.inl hc, hfalse⟩
    · have hr0 : respectRobots = false := by
        cases respectRobots
        · rfl
        · exact absurd rfl hr
      rw [can_fetch_off respectRobots env cache url hr0] at hfalse
      exact Bool.noConfusion hfalse

/-- Witness for `C8_can_fetch_fails_open`: with robots compliance disabled
the check allows the URL. -/
theorem C8_witness :
    false = false ∧
    (can_fetch false ⟨fun _ => none, fun _ _ => true⟩ []
      (pys "http://a/b")).1 = true :=
  ⟨rfl,
   (C8_can_fetch_fails_open false ⟨fun _ => none, fun _ _ => true⟩ []
     (pys "http://a/b")).1 rfl⟩

/-! ### Claim C7 — `download_pdf_streaming` cleanup -/

/-- Every run of the downloader ends in one of three shapes: rejection
before the temp file exists, failure after it (temp file filtered away), or
success (temp file renamed to the save path). -/
theorem download_pdf_shape (cfg : DlConfig) (env : DlEnv)
    (url savePath : PyStr) (fs : List PyStr) :
    download_pdf_streaming cfg env url savePath fs = (none, fs) ∨
    download_pdf_streaming cfg env url savePath fs =
      (none, List.filter (fun p => p ≠ env.tempName) fs) ∨
    ∃ resp content,
      env.getResult = some resp ∧
      streamLoop cfg env.elapsed resp.chunks 0 [] 0 = .done content ∧
      download_pdf_streaming cfg env url savePath fs =
        (some ⟨content.length, env.hashHex content⟩,
          savePath :: List.filter (fun p => p ≠ env.tempName) fs) := by
  have hhead : (fun p => decide (p ≠ env.tempName)) env.tempName = false := by
    simp
  simp only [download_pdf_streaming]
  split
  · exact Or.inl rfl
  · split
    · exact Or.inl rfl
    · rename_i resp heq
      split
      · exact Or.inl rfl
      · split
        · exact Or.inl rfl
        · split
          · exact Or.inl rfl
          · split
            · rename_i content hdone
              refine Or.inr (Or.inr ⟨resp, content, heq, hdone, ?_⟩)
              rw [List.filter_cons]
              simp
            · refine Or.inr (Or.inl ?_)
              rw [List.filter_cons]
              simp

/-- Claim C7: `download_pdf_streaming` is total (never an exception):
rejection before the stream (unsafe path, transport failure on the request,
non-200 status, oversized declared Content-Length, unacceptable content
type) leaves the filesystem untouched and returns no result; on every
no-result path the temporary file is absent afterwards; a mid-stream
failure (size / time ceiling, transport error) also returns no result; and
a result is returned only when the stream completed, in which case the file
is at the save path, sized and hashed from the streamed bytes, with the
temporary file gone. -/
theorem C7_download_pdf_streaming (cfg : DlConfig) (env : DlEnv)
    (url savePath : PyStr) (fs : List PyStr)
    (hTemp : env.tempName ∉ fs) (hNe : savePath ≠ env.tempName) :
    ((download_pdf_streaming cfg env url savePath fs).1 = none →
      env.tempName ∉ (download_pdf_streaming cfg env url savePath fs).2) ∧
    (env.pathSafe = false →
      download_pdf_streaming cfg env url savePath fs = (none, fs)) ∧
    (env.getResult = none →
      download_pdf_streaming cfg env url savePath fs = (none, fs)) ∧
    (∀ resp, env.getResult = some resp → resp.status ≠ 200 →
      download_pdf_streaming cfg env url savePath fs = (none, fs)) ∧
    (∀ resp n, env.getResult = some resp → resp.contentLength = some n →
      n > cfg.maxFileSizeBytes →
      download_pdf_streaming cfg env url savePath fs = (none, fs)) ∧
    (∀ resp, env.getResult = some resp →
      pyIn (pys "application/pdf") (pyLower resp.contentType) = false →
      pyIn (pys ".pdf") (pyLower url) = false →
      pyIn (pys ".pdf") (pyLower resp.contentDisp) = false →
      pyIn (pys "application/octet-stream") (pyLower resp.contentType) =
        false →
      download_pdf_streaming cfg env url savePath fs = (none, fs)) ∧
    (∀ resp, env.getResult = some resp →
      (∀ content,
        streamLoop cfg env.elapsed resp.chunks 0 [] 0 ≠ .done content) →
      (download_pdf_streaming cfg env url savePath fs).1 = none ∧
      env.tempName ∉ (download_pdf_streaming cfg env url savePath fs).2) ∧
    (∀ res, (download_pdf_streaming cfg env url savePath fs).1 = some res →
      ∃ resp content,
        env.getResult = some resp ∧
        streamLoop cfg env.elapsed resp.chunks 0 [] 0 = .done content ∧
        res = ⟨content.length, env.hashHex content⟩ ∧
        (download_pdf_streaming cfg env url savePath fs).2 =
          savePath :: fs ∧
        env.tempName ∉ (download_pdf_streaming cfg env url savePath fs).2) := by
  have hfilter : List.filter (fun p => p ≠ env.tempName) fs = fs := by
    rw [List.filter_eq_self]
    intro a ha
    rw [decide_eq_true_eq]
    intro hEq
    exact hTemp (hEq ▸ ha)
  refine ⟨?_, ?_, ?_, ?_, ?_, ?_, ?_, ?_⟩
  · intro hnone
    rcases download_pdf_shape cfg env url savePath fs with h | h | h
    · rw [h]
      exact hTemp
    · rw [h, hfilter]
      exact hTemp
    · rcases h with ⟨resp, content, _, _, h⟩
      rw [h] at hnone
      exact Option.noConfusion hnone
  · intro h
    simp only [download_pdf_streaming]
    rw [h]
    simp
  · intro h
    simp only [download_pdf_streaming]
    rw [h]
    split
    · rfl
    · rfl
  · intro resp h1 h2
    simp only [download_pdf_streaming]
    split
    · rfl
    · split
      · rfl
      · rename_i x heq
        rw [h1] at heq
        injection heq with hx
        subst hx
        rw [if_pos h2]
  · intro resp n h1 hcl hn
    simp only [download_pdf_streaming]
    split
    · rfl
    · split
      · rfl
      · rename_i x heq
        rw [h1] at heq
        injection heq with hx
        subst hx
        split
        · rfl
        · split
          · rfl
          · split
            · rfl
            · rename_i hlen
              exfalso
              rw [hcl] at hlen
              simp at hlen
              omega
  · intro resp h1 h2 h3 h4 h5
    simp only [download_pdf_streaming]
    split
    · rfl
    · split
      · rfl
      · rename_i x heq
        rw [h1] at heq
        injection heq with hx
        subst hx
        split
        · rfl
        · rw [if_pos ?_]
          refine ⟨?_, ?_, ?_, ?_⟩
          · rw [h2]
            exact Bool.false_ne_true
          · rw [h3]
            exact Bool.false_ne_true
          · rw [h4]
            exact Bool.false_ne_true
          · rw [h5]
            exact Bool.false_ne_true
  · intro resp h1 hstream
    rcases download_pdf_shape cfg env url savePath fs with h | h | h
    · rw [h]
      exact ⟨rfl, hTemp⟩
    · rw [h, hfilter]
      exact ⟨rfl, hTemp⟩
    · rcases h with ⟨resp2, content, heq, hdone, h⟩
      rw [h1] at heq
      injection heq with hx
      subst hx
      exact absurd hdone (hstream content)
  · intro res hres
    rcases download_pdf_shape cfg env url savePath fs with h | h | h
    · rw [h] at hres
      exact Option.noConfusion hres
    · rw [h] at hres
      exact Option.noConfusion hres
    · rcases h with ⟨resp, content, heq, hdone, h⟩
      rw [h] at hres
      injection hres with hr
      refine ⟨resp, content, heq, hdone, hr.symm, ?_, ?_⟩
      · rw [h, hfilter]
      · rw [h, hfilter]
        intro hmem
        rcases List.mem_cons.mp hmem with hx | hx
        · exact hNe hx.symm
        · exact hTemp hx

/-- Witness for `C7_download_pdf_streaming`: a clean single-chunk download
into an empty directory. -/
theorem C7_witness :
    pys "t.part" ∉ ([] : List PyStr) ∧
    pys "a.pdf" ≠ pys "t.part" ∧
    ((download_pdf_streaming ⟨1000, 10⟩
        ⟨true, some ⟨200, pys "application/pdf", [], none, [some [1, 2]]⟩,
          fun _ => 0, pys "t.part", fun _ => pys "h"⟩
        (pys "u") (pys "a.pdf") []).1 = none →
      pys "t.part" ∉
        (download_pdf_streaming ⟨1000, 10⟩
          ⟨true, some ⟨200, pys "application/pdf", [], none, [some [1, 2]]⟩,
            fun _ => 0, pys "t.part", fun _ => pys "h"⟩
          (pys "u") (pys "a.pdf") []).2) :=
  ⟨by decide, by decide,
   (C7_download_pdf_streaming ⟨1000, 10⟩
     ⟨true, some ⟨200, pys "application/pdf", [], none, [some [1, 2]]⟩,
       fun _ => 0, pys "t.part", fun _ => pys "h"⟩
     (pys "u") (pys "a.pdf") [] (by decide) (by decide)).1⟩

/-! ### Claim C5 — `same_domain` and ccTLD suffixes -/

theorem except_bind_ok {α β : Type} (a : α) (f : α → Except PyErr β) :
    (Except.ok a >>= f) = f a := rfl

theorem pyIn_singleton_false (c : Char) (s : PyStr) (h : c ∉ s) :
    pyIn [c] s = false := by
  induction s with
  | nil => rfl
  | cons a t ih =>
    have hca : ¬ c = a := fun hEq => h (hEq ▸ List.mem_cons_self a t)
    have hct : c ∉ t := fun hm => h (List.mem_cons_of_mem a hm)
    simp only [pyIn, List.tails_cons, List.any_cons] at ih ⊢
    rw [ih hct]
    simp [List.isPrefixOf, hca]

theorem splitOn_sep_append (x s : PyStr) (hx : ∀ c ∈ x, ¬ c = '.') :
    (x ++ '.' :: s).splitOn '.' = x :: s.splitOn '.' := by
  induction x with
  | nil =>
    simp [List.splitOn, List.splitOnP_cons]
  | cons a t ih =>
    have ha : ¬ a = '.' := hx a (List.mem_cons_self _ _)
    have iht := ih (fun c hc => hx c (List.mem_cons_of_mem _ hc))
    simp only [List.splitOn] at iht ⊢
    rw [List.cons_append, List.splitOnP_cons, if_neg (by simp [ha]), iht,
      List.modifyHead_cons]

-- character facts for a lowercase-letter string
theorem letters_facts : ∀ c ∈ pys "abcdefghijklmnopqrstuvwxyz",
    lowerChar c = c ∧
    (decide ¬(c = '\t' ∨ c = '\r' ∨ c = '\n')) = true ∧
    ¬ c = ':' ∧ ¬ c = '/' ∧ ¬ c = '?' ∧ ¬ c = '#' ∧
    ¬ c = '[' ∧ ¬ c = ']' ∧ ¬ c = '.' ∧ ¬ c = ';' := by decide

/-- Character facts for lower-case-letters-and-slash path strings. -/
theorem pathchar_facts : ∀ c ∈ pys "abcdefghijklmnopqrstuvwxyz/",
    lowerChar c = c ∧
    (decide ¬(c = '\t' ∨ c = '\r' ∨ c = '\n')) = true ∧
    ¬ c = ':' ∧ ¬ c = '?' ∧ ¬ c = '#' ∧ ¬ c = ';' ∧
    ¬ c = '[' ∧ ¬ c = ']' := by decide

/-- Every lower-case letter is a path character. -/
theorem letters_subset_pathchars :
    ∀ c ∈ pys "abcdefghijklmnopqrstuvwxyz",
      c ∈ pys "abcdefghijklmnopqrstuvwxyz/" := by decide

theorem findIdx?_letters (p : Char → Bool) (x : PyStr)
    (hx : ∀ c ∈ x, c ∈ pys "abcdefghijklmnopqrstuvwxyz")
    (hp : ∀ c ∈ pys "abcdefghijklmnopqrstuvwxyz", p c = false) :
    x.findIdx? p = none :=
  List.findIdx?_eq_none_iff.mpr (fun c hc => hp c (hx c hc))

-- The big one, prototyped in stages:
theorem urlparse_https_host (x r : PyStr)
    (hx : ∀ c ∈ x, c ∈ pys "abcdefghijklmnopqrstuvwxyz")
    (hr : ∀ c ∈ r, c ∈ pys "abcdefghijklmnopqrstuvwxyz/") :
    urlparse (pys "https://" ++ x ++ (pys ".co.nz/" ++ r)) =
      .ok ⟨pys "https", x ++ pys ".co.nz", '/' :: r, [], [], []⟩ := by
  have hsafe : ∀ c ∈ pys "abcdefghijklmnopqrstuvwxyz",
      (decide ¬(c = '\t' ∨ c = '\r' ∨ c = '\n')) = true := by decide
  have hA : removeUnsafe ((pys "https://" ++ x) ++ (pys ".co.nz/" ++ r)) =
      (pys "https://" ++ x) ++ (pys ".co.nz/" ++ r) := by
    unfold removeUnsafe
    rw [List.filter_eq_self]
    intro a ha
    rcases List.mem_append.mp ha with h1 | h2
    · rcases List.mem_append.mp h1 with h3 | h4
      · revert h3
        have : ∀ c ∈ pys "https://",
            (decide ¬(c = '\t' ∨ c = '\r' ∨ c = '\n')) = true := by decide
        exact this a
      · exact hsafe a (hx a h4)
    · rcases List.mem_append.mp h2 with h3 | h4
      · revert h3
        have : ∀ c ∈ pys ".co.nz/",
            (decide ¬(c = '\t' ∨ c = '\r' ∨ c = '\n')) = true := by decide
        exact this a
      · exact (pathchar_facts a (hr a h4)).2.1
  have hfind : pyFindChar ((pys "https://" ++ x) ++ (pys ".co.nz/" ++ r)) ':' =
      some 5 := by
    unfold pyFindChar
    rw [List.findIdx?_append, List.findIdx?_append,
      show List.findIdx? (fun c => decide (c = ':')) (pys "https://") = some 5
        from by decide]
    rfl
  have hhead : ((pys "https://" ++ x) ++ (pys ".co.nz/" ++ r)).headI = 'h' := rfl
  have htake : ((pys "https://" ++ x) ++ (pys ".co.nz/" ++ r)).take 5 =
      pys "https" := by
    rw [List.append_assoc, List.take_append_of_le_length (by decide)]
    decide
  have hdrop : ((pys "https://" ++ x) ++ (pys ".co.nz/" ++ r)).drop (5 + 1) =
      pys "//" ++ (x ++ (pys ".co.nz/" ++ r)) := by
    rw [List.append_assoc, List.drop_append_of_le_length (by decide)]
    rfl
  have hscheme : schemeSplit ((pys "https://" ++ x) ++ (pys ".co.nz/" ++ r)) =
      (pys "https", pys "//" ++ (x ++ (pys ".co.nz/" ++ r))) := by
    unfold schemeSplit
    simp only [hfind]
    rw [htake, hhead, hdrop]
    rw [if_pos (by decide)]
    rw [show pyLower (pys "https") = pys "https" from by decide]
  have hsw : pyStartsWith (pys "//" ++ (x ++ (pys ".co.nz/" ++ r)))
      (pys "//") = true := by
    unfold pyStartsWith
    exact List.isPrefixOf_iff_prefix.mpr (List.prefix_append _ _)
  have hfa : pyFindAny (x ++ (pys ".co.nz/" ++ r)) ['/', '?', '#'] =
      some (6 + x.length) := by
    unfold pyFindAny
    rw [List.findIdx?_append,
      findIdx?_letters _ x hx (by decide),
      List.findIdx?_append,
      show List.findIdx? (fun c => ['/', '?', '#'].contains c)
        (pys ".co.nz/") = some 6 from by decide]
    rfl
  have htk : (x ++ (pys ".co.nz/" ++ r)).take (6 + x.length) =
      x ++ pys ".co.nz" := by
    rw [Nat.add_comm, List.take_append,
      List.take_append_of_le_length (by decide)]
    rfl
  have hdr : (x ++ (pys ".co.nz/" ++ r)).drop (6 + x.length) = '/' :: r := by
    rw [Nat.add_comm, List.drop_append,
      List.drop_append_of_le_length (by decide)]
    rfl
  have hsn : splitnetloc2 (pys "//" ++ (x ++ (pys ".co.nz/" ++ r))) =
      (x ++ pys ".co.nz", '/' :: r) := by
    simp only [splitnetloc2]
    rw [show (pys "//" ++ (x ++ (pys ".co.nz/" ++ r))).drop 2 =
      x ++ (pys ".co.nz/" ++ r) from rfl]
    rw [hfa]
    rw [show (some (6 + x.length)).getD
      (x ++ (pys ".co.nz/" ++ r)).length = 6 + x.length from rfl]
    rw [htk, hdr]
  have hbra : pyIn (pys "[") (x ++ pys ".co.nz") = false := by
    rw [show pys "[" = ['['] from rfl]
    apply pyIn_singleton_false
    intro hmem
    rcases List.mem_append.mp hmem with h | h
    · exact absurd (hx _ h) (by decide)
    · exact absurd h (by decide)
  have hket : pyIn (pys "]") (x ++ pys ".co.nz") = false := by
    rw [show pys "]" = [']'] from rfl]
    apply pyIn_singleton_false
    intro hmem
    rcases List.mem_append.mp hmem with h | h
    · exact absurd (hx _ h) (by decide)
    · exact absurd h (by decide)
  have hfrag : pySplitFirst ('/' :: r) '#' = ('/' :: r, []) := by
    unfold pySplitFirst pyFindChar
    rw [List.findIdx?_eq_none_iff.mpr]
    intro c hc
    rcases List.mem_cons.mp hc with h | h
    · rw [h]; decide
    · rw [decide_eq_false_iff_not]
      exact (pathchar_facts c (hr c h)).2.2.2.2.1
  have hquery : pySplitFirst ('/' :: r) '?' = ('/' :: r, []) := by
    unfold pySplitFirst pyFindChar
    rw [List.findIdx?_eq_none_iff.mpr]
    intro c hc
    rcases List.mem_cons.mp hc with h | h
    · rw [h]; decide
    · rw [decide_eq_false_iff_not]
      exact (pathchar_facts c (hr c h)).2.2.2.1
  have hsemi : pyIn (pys ";") ('/' :: r) = false := by
    rw [show pys ";" = [';'] from rfl]
    apply pyIn_singleton_false
    intro hmem
    rcases List.mem_cons.mp hmem with h | h
    · exact absurd h (by decide)
    · exact absurd (hr _ h) (by decide)
  have hsplit : urlsplit ((pys "https://" ++ x) ++ (pys ".co.nz/" ++ r)) =
      .ok ⟨pys "https", x ++ pys ".co.nz", '/' :: r, [], []⟩ := by
    simp only [urlsplit, hA, hscheme, hsw, if_true, hsn, hbra, hket, hfrag,
      hquery]
    simp
  unfold urlparse
  rw [hsplit, except_bind_ok]
  simp only [hsemi]
  simp

def CCLD_SUFFIXES : List PyStr :=
  [pys "co.nz", pys "org.nz", pys "net.nz", pys "govt.nz", pys "ac.nz",
   pys "com.au", pys "org.au", pys "net.au", pys "edu.au", pys "gov.au",
   pys "co.uk", pys "org.uk", pys "me.uk", pys "net.uk", pys "gov.uk",
   pys "co.za", pys "org.za", pys "co.in", pys "com.sg", pys "com.hk",
   pys "co.jp", pys "com.br", pys "co.kr", pys "com.mx", pys "co.id"]

def get_base_domain (netloc : PyStr) : PyStr :=
  let n := (pySplitFirst (pyRemovePrefix (pyLower netloc) (pys "www.")) ':').1
  let parts := n.splitOn '.'
  if parts.length ≥ 3 ∧
      CCLD_SUFFIXES.contains (pyJoin '.' (parts.drop (parts.length - 2))) then
    pyJoin '.' (parts.drop (parts.length - 3))
  else if parts.length ≥ 2 then
    pyJoin '.' (parts.drop (parts.length - 2))
  else
    n

def same_domain (seedUrl candidateUrl : PyStr) : Except PyErr Bool := do
  let seed ← urlparse seedUrl
  let cand ← urlparse candidateUrl
  return get_base_domain seed.netloc = get_base_domain cand.netloc

theorem get_base_domain_clean (x : PyStr)
    (hx : ∀ c ∈ x, c ∈ pys "abcdefghijklmnopqrstuvwxyz")
    (hxw : x ≠ pys "www") :
    get_base_domain (x ++ pys ".co.nz") = x ++ pys ".co.nz" := by
  have hlow : pyLower (x ++ pys ".co.nz") = x ++ pys ".co.nz" := by
    unfold pyLower
    rw [List.map_append]
    rw [show List.map lowerChar (pys ".co.nz") = pys ".co.nz" from by decide]
    rw [List.map_congr_left (fun c hc => (letters_facts c (hx c hc)).1)]
    simp
  have hnp : (pys "www.").isPrefixOf (x ++ pys ".co.nz") = false := by
    by_cases hp : (pys "www.").isPrefixOf (x ++ pys ".co.nz") = true
    · exfalso
      rw [List.isPrefixOf_iff_prefix] at hp
      rcases hp with ⟨t, ht⟩
      have hf := congrArg (List.findIdx? (fun c => decide (c = '.'))) ht
      simp only [List.findIdx?_append,
        show List.findIdx? (fun c => decide (c = '.')) (pys "www.") = some 3
          from by decide,
        findIdx?_letters (fun c => decide (c = '.')) x hx (by decide),
        show List.findIdx? (fun c => decide (c = '.')) (pys ".co.nz") = some 0
          from by decide] at hf
      simp at hf
      have h3 : x.length = 3 := by omega
      have ht3 := congrArg (List.take 3) ht
      rw [@List.take_append_of_le_length _ (pys "www.") t 3 (by decide),
        List.take_left' h3] at ht3
      rw [show List.take 3 (pys "www.") = pys "www" from by decide] at ht3
      exact hxw ht3.symm
    · cases hb : List.isPrefixOf (pys "www.") (x ++ pys ".co.nz")
      · rfl
      · exact absurd hb hp
  have hrp : pyRemovePrefix (x ++ pys ".co.nz") (pys "www.") =
      x ++ pys ".co.nz" := by
    unfold pyRemovePrefix
    rw [hnp]
    simp
  have hnone : List.findIdx? (fun c => decide (c = ':'))
      (x ++ pys ".co.nz") = none := by
    rw [List.findIdx?_eq_none_iff]
    intro c hc
    rcases List.mem_append.mp hc with h | h
    · rw [decide_eq_false_iff_not]
      exact (letters_facts c (hx c h)).2.2.1
    · revert h
      have hcz : ∀ c ∈ pys ".co.nz", decide (c = ':') = false := by decide
      exact hcz c
  have hsp : pySplitFirst (x ++ pys ".co.nz") ':' =
      (x ++ pys ".co.nz", []) := by
    unfold pySplitFirst pyFindChar
    rw [hnone]
  have hso : (x ++ pys ".co.nz").splitOn '.' = [x, pys "co", pys "nz"] := by
    rw [show x ++ pys ".co.nz" = x ++ '.' :: pys "co.nz" from rfl]
    rw [splitOn_sep_append x (pys "co.nz")
      (fun c hc => (letters_facts c (hx c hc)).2.2.2.2.2.2.2.2.1)]
    rw [show (pys "co.nz").splitOn '.' = [pys "co", pys "nz"] from by decide]
  have hj : pyJoin '.' [x, pys "co", pys "nz"] = x ++ pys ".co.nz" := by
    unfold pyJoin
    simp [List.intercalate, List.intersperse]
    decide
  simp only [get_base_domain, hlow, hrp, hsp, hso]
  have hcond : ([x, pys "co", pys "nz"] : List PyStr).length ≥ 3 ∧
      CCLD_SUFFIXES.contains (pyJoin '.'
        (List.drop (([x, pys "co", pys "nz"] : List PyStr).length - 2)
          [x, pys "co", pys "nz"])) = true := by
    constructor
    · simp
    · rw [show List.drop (([x, pys "co", pys "nz"] : List PyStr).length - 2)
        [x, pys "co", pys "nz"] = [pys "co", pys "nz"] from rfl]
      decide
  rw [if_pos hcond]
  rw [show (([x, pys "co", pys "nz"] : List PyStr).length - 3 : Nat) = 0
    from rfl]
  rw [List.drop_zero]
  exact hj

theorem append_ne (x y s : PyStr) (hxy : x ≠ y) : x ++ s ≠ y ++ s := by
  intro h
  apply hxy
  have h2 := congrArg (fun l => List.take x.length l) h
  have hlen : x.length = y.length := by
    have := congrArg List.length h
    simp at this
    omega
  simp only [List.take_left] at h2
  rw [List.take_left' hlen.symm] at h2
  exact h2

/-- Claim C5: `same_domain` handles two-label country-code suffixes — the
quoted subdomain example is accepted, the quoted distinct-organization
example is rejected, hosts without a known ccTLD suffix compare on the last
two labels, and in general any two organizations `x ≠ y` (lower-case ASCII
host labels other than `www`) under `.co.nz` are never treated as the same
domain. -/
theorem C5_same_domain (x y r1 r2 : PyStr)
    (hx : ∀ c ∈ x, c ∈ pys "abcdefghijklmnopqrstuvwxyz")
    (hy : ∀ c ∈ y, c ∈ pys "abcdefghijklmnopqrstuvwxyz")
    (hr1 : ∀ c ∈ r1, c ∈ pys "abcdefghijklmnopqrstuvwxyz")
    (hr2 : ∀ c ∈ r2, c ∈ pys "abcdefghijklmnopqrstuvwxyz")
    (hxw : x ≠ pys "www") (hyw : y ≠ pys "www") (hxy : x ≠ y) :
    same_domain (pys "https://tower.co.nz/a")
      (pys "https://shop.tower.co.nz/b") = .ok true ∧
    same_domain (pys "https://tower.co.nz/a")
      (pys "https://other.co.nz/b") = .ok false ∧
    same_domain (pys "https://docs.tower.com/a")
      (pys "https://tower.com/b") = .ok true ∧
    same_domain (pys "https://" ++ x ++ (pys ".co.nz/" ++ r1))
      (pys "https://" ++ y ++ (pys ".co.nz/" ++ r2)) = .ok false := by
  refine ⟨by decide, by decide, by decide, ?_⟩
  unfold same_domain
  rw [urlparse_https_host x r1 hx
    (fun c hc => letters_subset_pathchars c (hr1 c hc)), except_bind_ok]
  simp only []
  rw [urlparse_https_host y r2 hy
    (fun c hc => letters_subset_pathchars c (hr2 c hc)), except_bind_ok]
  simp only []
  rw [get_base_domain_clean x hx hxw, get_base_domain_clean y hy hyw]
  rw [decide_eq_false (append_ne x y (pys ".co.nz") hxy)]
  rfl

/-- Witness for `C5_same_domain` at `tower` vs `other` with paths `a`, `b`. -/
theorem C5_witness :
    (∀ c ∈ pys "tower", c ∈ pys "abcdefghijklmnopqrstuvwxyz") ∧
    (∀ c ∈ pys "other", c ∈ pys "abcdefghijklmnopqrstuvwxyz") ∧
    (same_domain (pys "https://tower.co.nz/a")
        (pys "https://shop.tower.co.nz/b") = .ok true ∧
      same_domain (pys "https://tower.co.nz/a")
        (pys "https://other.co.nz/b") = .ok false ∧
      same_domain (pys "https://docs.tower.com/a")
        (pys "https://tower.com/b") = .ok true ∧
      same_domain (pys "https://" ++ pys "tower" ++ (pys ".co.nz/" ++ pys "a"))
        (pys "https://" ++ pys "other" ++ (pys ".co.nz/" ++ pys "b")) =
        .ok false) :=
  ⟨by decide, by decide,
   C5_same_domain (pys "tower") (pys "other") (pys "a") (pys "b")
     (by decide) (by decide) (by decide) (by decide)
     (by decide) (by decide) (by decide)⟩

/-! ### Claim C9 — small-file confidence halving -/

/-- A list built around an element contains it. -/
theorem contains_append_mid (a : PyStr) (l l2 : List PyStr) :
    ((l ++ [a]) ++ l2).contains a = true := by
  simp

/-- A list ending in an element contains it. -/
theorem contains_append_last (a : PyStr) (l : List PyStr) :
    (l ++ [a]).contains a = true := by
  simp

/-- `contains` through an `if` whose branches both contain the element. -/
theorem contains_ite (c : Prop) [inst : Decidable c] (X Y : List PyStr)
    (a : PyStr) (hX : X.contains a = true) (hY : Y.contains a = true) :
    (if c then X else Y).contains a = true := by
  split
  · exact hX
  · exact hY

/-- `contains` through the second component of an `if` between pairs. -/
theorem contains_ite_pair (c : Prop) [inst : Decidable c]
    (p q : PyStr × List PyStr) (a : PyStr)
    (hp : p.2.contains a = true) (hq : q.2.contains a = true) :
    (if c then p else q).2.contains a = true := by
  split
  · exact hp
  · exact hq

/-- Claim C9 counterexample: at `file_size = 0` (below 10 KB) the `if
file_size:` guard is falsy, so the confidence is not halved and no
"Very small file" warning is recorded. -/
theorem C9_counterexample :
    (0 : Int) < 10000 ∧
    ¬ ((classify_document (pys "https://x.com/a.pdf") (pys "a.pdf") []
          (some 0) none (pys "t")).map
        (fun r => (r.confidence, r.warnings.contains (pys "Very small file"))) =
      (classify_document (pys "https://x.com/a.pdf") (pys "a.pdf") []
          (some 0) none (pys "t")).map
        (fun _ => (pyRound2 (fmul
          (classifyConfidencePreSize (pys "https://x.com/a.pdf")
            (pys "a.pdf") none).1 (flit (1/2))), true))) := by
  constructor
  · decide
  · with_unfolding_all decide

/-- Claim C9 (amended): for every classification input whose `file_size` is
nonzero and below 10,000 bytes, the returned confidence is the pre-size
confidence multiplied by 0.5 (in binary64) and then rounded to 2 decimals,
and the warnings carry "Very small file"; at `file_size = 0` the adjustment
is skipped. -/
theorem C9_small_file_halving (u f p : PyStr) (text : Option PyStr)
    (now : PyStr) (n : Int) (hn0 : n ≠ 0) (hlt : n < 10000) :
    (classify_document u f p (some n) text now).map
      (fun r => (r.confidence, r.warnings.contains (pys "Very small file"))) =
    (classify_document u f p (some n) text now).map
      (fun _ => (pyRound2 (fmul (classifyConfidencePreSize u f text).1
        (flit (1/2))), true)) := by
  rcases hps : classifyConfidencePreSize u f text with ⟨pre, cls, w0, ms⟩
  simp only [classify_document, hps]
  rw [if_pos hn0, if_pos hlt]
  cases hu : urlparse u with
  | error e => rfl
  | ok parsed =>
    rw [except_bind_ok]
    simp only [pure, Except.pure, Except.map, Except.ok.injEq,
      Prod.mk.injEq]
    refine ⟨trivial, ?_⟩
    split
    · exact contains_append_last (pys "Very small file") w0
    · exact contains_ite_pair _ _ _ _
        (contains_ite _ _ _ _
          (contains_append_mid (pys "Very small file") w0 _)
          (contains_append_last (pys "Very small file") w0))
        (contains_append_mid (pys "Very small file") w0 _)

/-- Witness for `C9_small_file_halving` at a 500-byte file. -/
theorem C9_witness :
    (500 : Int) ≠ 0 ∧ (500 : Int) < 10000 ∧
    ((classify_document (pys "https://x.com/a.pdf") (pys "a.pdf") []
        (some 500) none (pys "t")).map
      (fun r => (r.confidence, r.warnings.contains (pys "Very small file"))) =
    (classify_document (pys "https://x.com/a.pdf") (pys "a.pdf") []
        (some 500) none (pys "t")).map
      (fun _ => (pyRound2 (fmul
        (classifyConfidencePreSize (pys "https://x.com/a.pdf")
          (pys "a.pdf") none).1 (flit (1/2))), true))) :=
  ⟨by decide, by decide,
   C9_small_file_halving (pys "https://x.com/a.pdf") (pys "a.pdf") []
     none (pys "t") 500 (by decide) (by decide)⟩

/-! ### Claim C1 — the refresh branch and `download_count` -/

/-- Claim C1 (code bug): on a candidate whose digest matches an existing
record whose file is missing on disk, the record is refreshed in place (one
row, new path/URL/size/session) and committed — but the very next statement,
`download_count += 1` (line 1763), raises `UnboundLocalError` because
`download_count` is bound nowhere in `run_crawl_session`; the error is not a
`SQLAlchemyError`, escapes the per-candidate handler, aborts the candidate
loop and the session ends `failed` instead of continuing. -/
theorem C1_refresh_unbound_local :
    (processCandidate ⟨[], pys "standard", false⟩
        ⟨fun _ => false, fun _ _ => some ⟨5000, pys "h1"⟩, fun _ => none,
          false, fun _ => false, pys "t", fun _ => true⟩
        7 [] [] (pys "NZ") 1 0 (pys "https://tower.co.nz/policy.pdf")
        ⟨[⟨3, pys "old-url", pys "Tower", some (pys "Tower/old.pdf"), 111,
            pys "h1", pys "NZ", pys "General", pys "General Document", 0,
            pys "needs-review", none, some 1⟩],
          [], initialCounters, 0, 50, 0, 0⟩).1 =
      .error (.unboundLocal (pys "download_count")) ∧
    (processCandidate ⟨[], pys "standard", false⟩
        ⟨fun _ => false, fun _ _ => some ⟨5000, pys "h1"⟩, fun _ => none,
          false, fun _ => false, pys "t", fun _ => true⟩
        7 [] [] (pys "NZ") 1 0 (pys "https://tower.co.nz/policy.pdf")
        ⟨[⟨3, pys "old-url", pys "Tower", some (pys "Tower/old.pdf"), 111,
            pys "h1", pys "NZ", pys "General", pys "General Document", 0,
            pys "needs-review", none, some 1⟩],
          [], initialCounters, 0, 50, 0, 0⟩).2.docs.map
      (fun d => (d.id, d.localFilePath, d.sourceUrl, d.fileSize,
        d.crawlSessionId)) =
      [(3, some (pys "Tower/policy.pdf"),
        pys "https://tower.co.nz/policy.pdf", 5000, some 7)] ∧
    (processCandidate ⟨[], pys "standard", false⟩
        ⟨fun _ => false, fun _ _ => some ⟨5000, pys "h1"⟩, fun _ => none,
          false, fun _ => false, pys "t", fun _ => true⟩
        7 [] [] (pys "NZ") 1 0 (pys "https://tower.co.nz/policy.pdf")
        ⟨[⟨3, pys "old-url", pys "Tower", some (pys "Tower/old.pdf"), 111,
            pys "h1", pys "NZ", pys "General", pys "General Document", 0,
            pys "needs-review", none, some 1⟩],
          [], initialCounters, 0, 50, 0, 0⟩).2.commitIdx = 1 ∧
    sessionFinalStatus
      (candidatePhase ⟨[], pys "standard", false⟩
        ⟨fun _ => false, fun _ _ => some ⟨5000, pys "h1"⟩, fun _ => none,
          false, fun _ => false, pys "t", fun _ => true⟩
        7 [] [] (pys "NZ") 1 [pys "https://tower.co.nz/policy.pdf"] 0
        ⟨[⟨3, pys "old-url", pys "Tower", some (pys "Tower/old.pdf"), 111,
            pys "h1", pys "NZ", pys "General", pys "General Document", 0,
            pys "needs-review", none, some 1⟩],
          [], initialCounters, 0, 50, 0, 0⟩).1 = pys "failed" := by
  refine ⟨?_, ?_, ?_, ?_⟩ <;> decide

/-! ### Claim C3 — the page budget -/

/-- The frontier loop never pushes `pagesCrawled` past `maxPages`. -/
theorem crawlLoop_pages_le (cfg : CrawlConfig) (env : CrawlEnv)
    (seedUrl : PyStr) (kf pt : List PyStr) (maxPages : Nat) :
    ∀ (fuel : Nat) (st : LoopState), st.pagesCrawled ≤ maxPages →
      ∀ st', crawlLoop cfg env seedUrl kf pt maxPages fuel st = .ok st' →
        st'.pagesCrawled ≤ maxPages := by
  intro fuel
  induction fuel with
  | zero =>
    intro st hst st' h
    injection h with h
    exact h ▸ hst
  | succ n ih =>
    intro st hst st' h
    unfold crawlLoop at h
    split at h
    · injection h with h
      exact h ▸ hst
    · rename_i hg
      split at h
      · injection h with h
        exact h ▸ hst
      · split at h
        · injection h with h
          exact h ▸ hst
        · split at h
          all_goals
            simp only [] at h
            split at h
            · exact ih _ (by exact hst) st' h
            · split at h
              · exact ih _ (by exact hst) st' h
              · split at h
                · exact Except.noConfusion h
                · split at h
                  · exact ih _ (by exact hst) st' h
                  · have hlt : st.pagesCrawled + 1 ≤ maxPages := by
                      rcases not_or.mp hg with ⟨h1, h2⟩
                      have h3 := not_not.mp h2
                      omega
                    split at h
                    · exact ih _ (by exact hlt) st' h
                    · split at h
                      · exact ih _ (by exact hlt) st' h
                      · split at h
                        · exact ih _ (by exact hlt) st' h
                        · exact ih _ (by exact hlt) st' h

/-- `crawl_domain` crawls at most its page budget (budget at least 1). -/
theorem crawl_domain_pages_le (cfg : CrawlConfig) (env : CrawlEnv)
    (fuel : Nat) (seedUrl : PyStr) (maxPages : Nat)
    (kf pt gv : List PyStr) (hmp : 1 ≤ maxPages) :
    ∀ out, crawl_domain cfg env fuel seedUrl maxPages kf pt gv = .ok out →
      out.2.1 ≤ maxPages := by
  intro out h
  unfold crawl_domain at h
  cases hpdf : is_pdf_url seedUrl with
  | error e =>
    rw [hpdf] at h
    exact Except.noConfusion h
  | ok b =>
    rw [hpdf, except_bind_ok] at h
    cases b with
    | true =>
      rw [if_pos rfl] at h
      cases hnz : normalize_url cfg.tracking seedUrl with
      | error e =>
        rw [hnz] at h
        exact Except.noConfusion h
      | ok normalized =>
        rw [hnz, except_bind_ok] at h
        split at h
        split at h
        · injection h with h
          rw [← h]
          exact hmp
        · injection h with h
          rw [← h]
          exact hmp
    | false =>
      rw [if_neg Bool.false_ne_true] at h
      cases hup : urlparse seedUrl with
      | error e =>
        rw [hup] at h
        exact Except.noConfusion h
      | ok parsed =>
        rw [hup, except_bind_ok] at h
        simp only [] at h
        split at h
        · injection h with h
          rw [← h]
          exact hmp
        · cases hcl : crawlLoop cfg env seedUrl kf pt maxPages fuel
              ⟨[seedUrl], gv, [], 0, [], 0⟩ with
          | error e =>
            rw [hcl] at h
            exact Except.noConfusion h
          | ok final =>
            rw [hcl, except_bind_ok] at h
            injection h with h
            rw [← h]
            exact crawlLoop_pages_le cfg env seedUrl kf pt maxPages fuel
              ⟨[seedUrl], gv, [], 0, [], 0⟩ (Nat.zero_le _) final hcl

/-- The seed loop keeps `total_pages + remaining_budget` bounded by the
session budget and the remaining budget non-negative. -/
theorem scanSeedsLoop_inv (cfg : CrawlConfig) (env : ScanEnv) (fuel : Nat)
    (kf pt : List PyStr) (pagesPerSeed : Nat) (hpps : 1 ≤ pagesPerSeed)
    (B : Int) :
    ∀ (seeds : List PyStr) (idx : Nat) (st : ScanState),
      (st.totalPages : Int) + st.remainingBudget ≤ B →
      0 ≤ st.remainingBudget →
      ∀ st', scanSeedsLoop cfg env fuel kf pt pagesPerSeed seeds idx st =
          .ok st' →
        (st'.totalPages : Int) + st'.remainingBudget ≤ B ∧
        0 ≤ st'.remainingBudget := by
  intro seeds
  induction seeds with
  | nil =>
    intro idx st h1 h2 st' h
    injection h with h
    rw [← h]
    exact ⟨h1, h2⟩
  | cons seedUrl rest ih =>
    intro idx st h1 h2 st' h
    unfold scanSeedsLoop at h
    split at h
    · injection h with h
      rw [← h]
      exact ⟨h1, h2⟩
    · split at h
      · injection h with h
        rw [← h]
        exact ⟨h1, h2⟩
      · rename_i hrem
        simp only [] at h
        cases hcd : crawl_domain cfg env.crawlEnv fuel seedUrl
            ((pagesPerSeed : Int) ⊓ st.remainingBudget).toNat kf pt
            st.globalVisited with
        | error e =>
          rw [hcd] at h
          exact Except.noConfusion h
        | ok out =>
          rw [hcd, except_bind_ok] at h
          obtain ⟨pdfUrls, pagesCrawled, visited2⟩ := out
          have hmin : (pagesPerSeed : Int) ⊓ st.remainingBudget =
              min (pagesPerSeed : Int) st.remainingBudget := rfl
          have hble : 1 ≤ ((pagesPerSeed : Int) ⊓ st.remainingBudget).toNat := by
            rw [hmin]
            omega
          have hpc : pagesCrawled ≤
              ((pagesPerSeed : Int) ⊓ st.remainingBudget).toNat :=
            crawl_domain_pages_le cfg env.crawlEnv fuel seedUrl _ kf pt
              st.globalVisited hble (pdfUrls, pagesCrawled, visited2) hcd
          refine ih (idx + 1) _ ?_ ?_ st' h
          · simp only []
            push_cast
            omega
          · simp only []
            omega

/-- Claim C3: for every session (any seed list, any `max_pages`), the
cumulative `pages_scanned` computed by the scan phase of
`run_crawl_session` — the sum over seeds of the pages-crawled counts
returned by `crawl_domain` — never exceeds the configured `max_pages`. -/
theorem C3_pages_scanned_le_max (cfg : CrawlConfig) (env : ScanEnv)
    (fuel : Nat) (seedUrls : List PyStr) (maxPages : Nat)
    (kf pt : List PyStr) (st' : ScanState)
    (h : runCrawlSessionScan cfg env fuel seedUrls maxPages kf pt = .ok st') :
    st'.totalPages ≤ maxPages := by
  unfold runCrawlSessionScan at h
  have := scanSeedsLoop_inv cfg env fuel kf pt
    (max 3 (maxPages / max 1 seedUrls.length)) (by omega) (maxPages : Int)
    seedUrls 1 ⟨[], 0, (maxPages : Int), []⟩ (by simp) (by simp) st' h
  omega

/-- Witness for `C3_pages_scanned_le_max`: the empty seed list scans zero
pages. -/
theorem C3_witness :
    runCrawlSessionScan ⟨[], pys "standard", false⟩
      ⟨⟨fun _ => none, fun _ u => u, fun _ => true, fun _ => false,
        fun _ => none, fun _ => false⟩, fun _ => false⟩
      0 [] 5 [] [] = .ok ⟨[], 0, (5 : Int), []⟩ ∧
    (⟨[], 0, (5 : Int), []⟩ : ScanState).totalPages ≤ 5 :=
  ⟨rfl,
   C3_pages_scanned_le_max ⟨[], pys "standard", false⟩
     ⟨⟨fun _ => none, fun _ u => u, fun _ => true, fun _ => false,
       fun _ => none, fun _ => false⟩, fun _ => false⟩
     0 [] 5 [] [] ⟨[], 0, (5 : Int), []⟩ rfl⟩

/-! ### Claim C6 — `normalize_url` idempotence -/

/-- `rstrip` absorbs one trailing strip character. -/
theorem pyRstrip_append_slash (s : PyStr) :
    pyRstrip '/' (s ++ ['/']) = pyRstrip '/' s := by
  unfold pyRstrip
  rw [List.reverse_append]
  simp [List.dropWhile_cons]

/-- `rstrip` is the identity when the last character is not stripped. -/
theorem pyRstrip_no_trailing (s : PyStr) (h : s.reverse.head? ≠ some '/') :
    pyRstrip '/' s = s := by
  cases hs : s.reverse with
  | nil =>
    have h0 : s = [] := by simpa using congrArg List.reverse hs
    subst h0
    rfl
  | cons c t =>
    have hc : ¬ c = '/' := by
      intro hEq
      exact h (by rw [hs, List.head?_cons, hEq])
    have h2 : s = (c :: t).reverse := by
      simpa using congrArg List.reverse hs
    unfold pyRstrip
    rw [h2, List.reverse_reverse, List.dropWhile_cons,
      if_neg (by simp [hc])]

/-- Evaluation of `urlunparse` on an https result with authority. -/
theorem urlunparse_https (netloc np : PyStr) (hn : netloc ≠ []) :
    urlunparse (pys "https") netloc ('/' :: np) [] [] [] =
      pys "https://" ++ (netloc ++ ('/' :: np)) := by
  obtain ⟨n0, nt, rfl⟩ : ∃ n0 nt, netloc = n0 :: nt := by
    cases netloc with
    | nil => exact absurd rfl hn
    | cons a b => exact ⟨a, b, rfl⟩
  unfold urlunparse urlunsplit
  simp [show (pys "https" ≠ []) from by decide,
    show pys "/" = ['/'] from rfl]
  rfl

/-- `str.lower` fixes a letters-plus-`.co.nz` authority. -/
theorem pyLower_host (x : PyStr)
    (hx : ∀ c ∈ x, c ∈ pys "abcdefghijklmnopqrstuvwxyz") :
    pyLower (x ++ pys ".co.nz") = x ++ pys ".co.nz" := by
  unfold pyLower
  rw [List.map_append]
  rw [show List.map lowerChar (pys ".co.nz") = pys ".co.nz" from by decide]
  rw [List.map_congr_left (fun c hc => (letters_facts c (hx c hc)).1)]
  simp

/-- Evaluation of `normalize_url` on a clean https URL: the authority is
lower-case-fixed, the query is empty, and the path normalizes as
`rstrip('/') or '/'`. -/
theorem normalize_url_core (tracking : List PyStr) (x p np : PyStr)
    (hx : ∀ c ∈ x, c ∈ pys "abcdefghijklmnopqrstuvwxyz")
    (hp : ∀ c ∈ p, c ∈ pys "abcdefghijklmnopqrstuvwxyz/")
    (hnp : (if pyRstrip '/' ('/' :: p) = [] then pys "/"
        else pyRstrip '/' ('/' :: p)) = '/' :: np) :
    normalize_url tracking ((pys "https://" ++ x) ++ (pys ".co.nz/" ++ p)) =
      .ok ((pys "https://" ++ x) ++ (pys ".co.nz/" ++ np)) := by
  have hnl : x ++ pys ".co.nz" ≠ [] := by
    intro hEq
    have hlen : (x ++ pys ".co.nz").length = 0 := by
      rw [hEq]
      rfl
    rw [List.length_append] at hlen
    have h6 : (pys ".co.nz").length = 6 := rfl
    omega
  unfold normalize_url
  rw [urlparse_https_host x p hx hp, except_bind_ok]
  simp only []
  rw [hnp]
  rw [if_neg (fun h => h rfl)]
  rw [show pyLower (pys "https") = pys "https" from by decide]
  rw [pyLower_host x hx]
  rw [urlunparse_https (x ++ pys ".co.nz") np hnl]
  rw [List.append_assoc]
  exact rfl

/-- Claim C6 counterexample: `normalize_url` is not idempotent.  On
`http:////foo` one pass yields `http://foo` (the empty authority is glued to
the `//`-initial path), whose second pass yields `http://foo/`; on
`http://h/x/;y//` one pass yields `http://h/x/;y`, whose second pass
re-splits the `;y` as parameters and yields `http://h/x;y`. -/
theorem C6_counterexample :
    normalize_url [] (pys "http:////foo") = .ok (pys "http://foo") ∧
    normalize_url [] (pys "http://foo") = .ok (pys "http://foo/") ∧
    pys "http://foo" ≠ pys "http://foo/" ∧
    normalize_url [] (pys "http://h/x/;y//") = .ok (pys "http://h/x/;y") ∧
    normalize_url [] (pys "http://h/x/;y") = .ok (pys "http://h/x;y") ∧
    pys "http://h/x/;y" ≠ pys "http://h/x;y" := by
  refine ⟨?_, ?_, ?_, ?_, ?_, ?_⟩ <;> decide

/-- Claim C6 (amended): on well-formed https URLs (non-empty lower-case
authority, letters-and-slashes path, no query, no params re-split),
`normalize_url` strips the trailing slash, keeps the root path `/`, is a
fixed point on its own output, and hence is idempotent there; tracking
parameters are removed (concrete conjuncts), and the original claim's
unrestricted idempotence fails (see the counterexample). -/
theorem C6_normalize_url (tracking : List PyStr) (x r : PyStr)
    (hx : ∀ c ∈ x, c ∈ pys "abcdefghijklmnopqrstuvwxyz")
    (hr : ∀ c ∈ r, c ∈ pys "abcdefghijklmnopqrstuvwxyz/")
    (hlast : r.reverse.head? ≠ some '/') :
    normalize_url tracking ((pys "https://" ++ x) ++ (pys ".co.nz/" ++ r)) =
      .ok ((pys "https://" ++ x) ++ (pys ".co.nz/" ++ r)) ∧
    normalize_url tracking
        (((pys "https://" ++ x) ++ (pys ".co.nz/" ++ r)) ++ pys "/") =
      .ok ((pys "https://" ++ x) ++ (pys ".co.nz/" ++ r)) ∧
    (normalize_url tracking
        (((pys "https://" ++ x) ++ (pys ".co.nz/" ++ r)) ++ pys "/")).bind
      (normalize_url tracking) =
      normalize_url tracking
        (((pys "https://" ++ x) ++ (pys ".co.nz/" ++ r)) ++ pys "/") ∧
    normalize_url [pys "utm_source"]
        (pys "https://x.co.nz/a?utm_source=1&b=2") =
      .ok (pys "https://x.co.nz/a?b=2") ∧
    normalize_url [pys "utm_source"] (pys "https://x.co.nz/a?b=2") =
      .ok (pys "https://x.co.nz/a?b=2") := by
  have hfix : (if pyRstrip '/' ('/' :: r) = [] then pys "/"
      else pyRstrip '/' ('/' :: r)) = '/' :: r := by
    cases hrr : r.reverse with
    | nil =>
      have h0 : r = [] := by simpa using congrArg List.reverse hrr
      subst h0
      decide
    | cons c t =>
      have hs : pyRstrip '/' ('/' :: r) = '/' :: r := by
        apply pyRstrip_no_trailing
        rw [show ('/' :: r).reverse = r.reverse ++ ['/'] from by simp, hrr]
        intro hEq
        rw [hrr] at hlast
        simp only [List.cons_append, List.head?_cons] at hEq
        exact hlast (by rw [List.head?_cons, hEq])
      rw [hs]
      rw [if_neg (by simp)]
  have h1 : normalize_url tracking
      ((pys "https://" ++ x) ++ (pys ".co.nz/" ++ r)) =
      .ok ((pys "https://" ++ x) ++ (pys ".co.nz/" ++ r)) :=
    normalize_url_core tracking x r r hx hr hfix
  have hin : ((pys "https://" ++ x) ++ (pys ".co.nz/" ++ r)) ++ pys "/" =
      (pys "https://" ++ x) ++ (pys ".co.nz/" ++ (r ++ pys "/")) := by
    simp [List.append_assoc]
  have hp2 : ∀ c ∈ r ++ pys "/", c ∈ pys "abcdefghijklmnopqrstuvwxyz/" := by
    intro c hc
    rcases List.mem_append.mp hc with h | h
    · exact hr c h
    · revert h
      have hss : ∀ c ∈ pys "/", c ∈ pys "abcdefghijklmnopqrstuvwxyz/" := by
        decide
      exact hss c
  have hfix2 : (if pyRstrip '/' ('/' :: (r ++ pys "/")) = [] then pys "/"
      else pyRstrip '/' ('/' :: (r ++ pys "/"))) = '/' :: r := by
    rw [show ('/' :: (r ++ pys "/")) = ('/' :: r) ++ ['/'] from rfl,
      pyRstrip_append_slash]
    exact hfix
  have h2 : normalize_url tracking
      (((pys "https://" ++ x) ++ (pys ".co.nz/" ++ r)) ++ pys "/") =
      .ok ((pys "https://" ++ x) ++ (pys ".co.nz/" ++ r)) := by
    rw [hin]
    exact normalize_url_core tracking x (r ++ pys "/") r hx hp2 hfix2
  refine ⟨h1, h2, ?_, by decide, by decide⟩
  rw [h2]
  rw [show Except.bind (Except.ok ((pys "https://" ++ x) ++
      (pys ".co.nz/" ++ r)) : Except PyErr PyStr) (normalize_url tracking) =
    normalize_url tracking ((pys "https://" ++ x) ++ (pys ".co.nz/" ++ r))
    from rfl]
  rw [h1]

/-- Witness for `C6_normalize_url` at host `tower`, path `docs/a`. -/
theorem C6_witness :
    (∀ c ∈ pys "tower", c ∈ pys "abcdefghijklmnopqrstuvwxyz") ∧
    (∀ c ∈ pys "docs/a", c ∈ pys "abcdefghijklmnopqrstuvwxyz/") ∧
    (pys "docs/a").reverse.head? ≠ some '/' ∧
    (normalize_url [] ((pys "https://" ++ pys "tower") ++
        (pys ".co.nz/" ++ pys "docs/a")) =
      .ok ((pys "https://" ++ pys "tower") ++
        (pys ".co.nz/" ++ pys "docs/a")) ∧
    normalize_url []
        (((pys "https://" ++ pys "tower") ++
          (pys ".co.nz/" ++ pys "docs/a")) ++ pys "/") =
      .ok ((pys "https://" ++ pys "tower") ++
        (pys ".co.nz/" ++ pys "docs/a")) ∧
    (normalize_url []
        (((pys "https://" ++ pys "tower") ++
          (pys ".co.nz/" ++ pys "docs/a")) ++ pys "/")).bind
      (normalize_url []) =
      normalize_url []
        (((pys "https://" ++ pys "tower") ++
          (pys ".co.nz/" ++ pys "docs/a")) ++ pys "/") ∧
    normalize_url [pys "utm_source"]
        (pys "https://x.co.nz/a?utm_source=1&b=2") =
      .ok (pys "https://x.co.nz/a?b=2") ∧
    normalize_url [pys "utm_source"] (pys "https://x.co.nz/a?b=2") =
      .ok (pys "https://x.co.nz/a?b=2")) :=
  ⟨by decide, by decide, by decide,
   C6_normalize_url [] (pys "tower") (pys "docs/a")
     (by decide) (by decide) (by decide)⟩

end CrawlServiceProofs
